import Mathlib

/-
Verification of the bgp-monitor collection/reconciliation/alerting pipeline.

Shallow embedding of the Python sources:
  app/core/ssh_client.py      (command gateway: validation, execution, audit)
  app/core/database.py        (transactional batch semantics)
  app/services/parser.py      (output parsers, uptime normalization)
  app/services/bgp_collector.py / interface_collector.py (state reconcilers)
  app/services/alert_manager.py (alert rules and suppression windows)

Python strings are modelled by Lean String; machine integers by Int/Nat
(no overflow is reachable in the modelled code paths); code that may raise
is modelled with Option (an absent value = the raised exception), and the
surrounding try/except blocks are modelled by the explicit fallbacks the
source installs.  Timestamps are modelled as Nat (seconds); the source's
ISO-8601 strings are totally ordered in the same way.
-/

namespace BGPMon

/-! ## Python string primitives (models of `str` methods used by the source) -/

/-- Model of Python's whitespace class (`str.strip`, `str.split`, regex `\s`). -/
def pyIsSpaceChar (c : Char) : Bool :=
  c = ' ' || c = '\t' || c = '\n' || c = '\r' || c = '\x0b' || c = '\x0c'

/-- Model of Python's `str.isdigit` / regex `\d` on ASCII input. -/
def pyIsDigit (c : Char) : Bool := '0' ≤ c && c ≤ '9'

/-- Regex `\w` (word character) on ASCII input. -/
def pyWordChar (c : Char) : Bool := c.isAlpha || pyIsDigit c || c = '_'

/-- Model of Python's `str.lower` (ASCII). -/
def pyLower (s : String) : String := ⟨s.data.map Char.toLower⟩

/-- Model of Python's `str.upper` (ASCII). -/
def pyUpper (s : String) : String := ⟨s.data.map Char.toUpper⟩

/-- Model of Python's `str.strip()` with no argument. -/
def pyStrip (s : String) : String :=
  ⟨((s.data.dropWhile pyIsSpaceChar).reverse.dropWhile pyIsSpaceChar).reverse⟩

/-- Model of Python's `str.startswith`. -/
def pyStartsWith (s pre : String) : Bool := pre.data.isPrefixOf s.data

/-- Contiguous-sublist test on lists (needle occurs inside hay). -/
def listInfixB (needle : List Char) : List Char → Bool
  | [] => needle.isEmpty
  | c :: cs => needle.isPrefixOf (c :: cs) || listInfixB needle cs

/-- Model of Python's `needle in haystack` substring test (and SQL `LIKE %x%`). -/
def containsSub (hay needle : String) : Bool := listInfixB needle.data hay.data

/-- Digit list to number (digits guaranteed by callers' patterns). -/
def digitsToNat (ds : List Char) : Nat :=
  ds.foldl (fun a c => a * 10 + (c.toNat - 48)) 0

/-- Model of Python's `int(str)`: strip whitespace, optional sign, digits;
`none` models the `ValueError` Python raises on anything else. -/
def pyInt? (s : String) : Option Int :=
  let core := (pyStrip s).data
  match core with
  | [] => none
  | c :: cs =>
    if c = '-' then
      if cs ≠ [] ∧ cs.all pyIsDigit then some (-(digitsToNat cs : Int)) else none
    else if c = '+' then
      if cs ≠ [] ∧ cs.all pyIsDigit then some (digitsToNat cs : Int) else none
    else
      if core.all pyIsDigit then some (digitsToNat core : Int) else none

/-- Model of Python's `str.split()` (no argument: split on whitespace runs,
dropping empty tokens). -/
def splitWS (l : List Char) : List (List Char) :=
  (l.splitOnP pyIsSpaceChar).filter (fun t => !t.isEmpty)

/-- Split on a single separator character, keeping empty segments (the
behaviour of Python's `str.split(sep)` for the one-character separators
`"\n"` and `":"` used by the source). -/
def splitOnChar (sep : Char) : List Char → List (List Char)
  | [] => [[]]
  | c :: cs =>
    let r := splitOnChar sep cs
    if c = sep then [] :: r
    else
      match r with
      | t :: ts => (c :: t) :: ts
      | [] => [[c]]

/-- `str.split("\n")` lifted to `String`. -/
def pySplitLines (s : String) : List String :=
  (splitOnChar '\n' s.data).map (fun l => (⟨l⟩ : String))

/-- `str.split(":")` lifted to `String`. -/
def pySplitColon (s : String) : List String :=
  (splitOnChar ':' s.data).map (fun l => (⟨l⟩ : String))

/-- Model of Python's `c in s` membership test for a single character. -/
def pyContainsChar (s : String) (c : Char) : Bool := s.data.contains c

/-- Model of Python's `str.split(None, k)` (whitespace split with maxsplit). -/
def splitWSMax : Nat → List Char → List (List Char)
  | 0, l =>
    let r := l.dropWhile pyIsSpaceChar
    if r = [] then [] else [r]
  | k + 1, l =>
    match l.dropWhile pyIsSpaceChar with
    | [] => []
    | c :: cs =>
      (c :: cs.takeWhile (fun x => !pyIsSpaceChar x))
        :: splitWSMax k (cs.dropWhile (fun x => !pyIsSpaceChar x))

/-! ## Command gateway (app/core/ssh_client.py) -/

/-- `HuaweiSSHClient.ALLOWED_COMMANDS`: whitelist of read-only command
name beginnings (source lines 30-41). -/
def ALLOWED_COMMANDS : List String :=
  [ "display bgp peer",
    "display bgp routing-table peer",
    "display interface brief",
    "display interface",
    "display interface statistics",
    "display ip interface brief",
    "display cpu-usage",
    "display memory-usage",
    "display version",
    "display current-configuration interface" ]

/-- `HuaweiSSHClient.FORBIDDEN_KEYWORDS` (source lines 44-59).  The source
declares this list but `_validate_command` never consults it. -/
def FORBIDDEN_KEYWORDS : List String :=
  [ "system-view", "interface ", "undo ", "shutdown", "reset", "save",
    "commit", "delete", "set ", "config", "configure", "write", "erase",
    "clear" ]

/-- The allow-list test of `_validate_command` (source lines 102-110):
`command.lower().strip()` starts with `allowed.lower()` for some entry. -/
def is_command_allowed (command : String) : Bool :=
  ALLOWED_COMMANDS.any (fun allowed =>
    pyStartsWith (pyStrip (pyLower command)) (pyLower allowed))

/-- Whether any deny-list keyword occurs anywhere in the command text
(never computed by the source; used here to state independence). -/
def containsForbiddenKeyword (command : String) : Bool :=
  FORBIDDEN_KEYWORDS.any (fun kw => containsSub command kw)

/-- Result of `_validate_command` (source lines 89-119): it returns on
allow-list hit and raises `SSHClientError` otherwise; the deny-list is
never checked. -/
inductive ValidationResult where
  | ok : ValidationResult
  | rejected : ValidationResult
deriving DecidableEq

/-- `HuaweiSSHClient._validate_command` (source lines 89-119). -/
def _validate_command (command : String) : ValidationResult :=
  if is_command_allowed command then ValidationResult.ok
  else ValidationResult.rejected

/-- One row of the `ssh_commands_log` audit table. -/
structure AuditRecord where
  command : String
  execution_time_ms : Nat
  success : Bool
  error_message : Option String
deriving DecidableEq

/-- Environment of one `execute_command` call: whether the session is (or
can be made) available, the interactive shell's behaviour (`some raw`
output, or `none` when the exchange raises), whether the audit INSERT
succeeds, and the text of the execution error when one occurs. -/
structure ExecEnv where
  connectOk : Bool
  shellOutput : Option String
  auditWriteOk : Bool
  errMsg : String
deriving DecidableEq

/-- Failure modes of `execute_command`. -/
inductive ExecError where
  | validationRejected : ExecError
  | connectFailed : ExecError
  | execFailed : ExecError
deriving DecidableEq

/-- Observable outcome of one `execute_command` call: the returned value or
raised error, whether any network I/O was attempted, how many audit-log
writes were attempted (`_log_command_execution` calls), and the audit rows
actually persisted. -/
instance : DecidableEq (Except ExecError String) := fun a b =>
  match a, b with
  | Except.ok x, Except.ok y =>
    if h : x = y then isTrue (by rw [h]) else isFalse (by intro hc; cases hc; exact h rfl)
  | Except.error x, Except.error y =>
    if h : x = y then isTrue (by rw [h]) else isFalse (by intro hc; cases hc; exact h rfl)
  | Except.ok _, Except.error _ => isFalse (by intro hc; cases hc)
  | Except.error _, Except.ok _ => isFalse (by intro hc; cases hc)

structure ExecOutcome where
  result : Except ExecError String
  networkUsed : Bool
  auditAttempts : Nat
  auditRecords : List AuditRecord
deriving DecidableEq

/-- `HuaweiSSHClient._log_command_execution` (source lines 121-145): one
INSERT attempt; the enclosing try/except swallows a failing write, so the
function always returns (the row is simply absent). -/
def _log_command_execution (env : ExecEnv) (command : String)
    (execution_time_ms : Nat) (success : Bool) (error_message : Option String) :
    List AuditRecord :=
  if env.auditWriteOk then [⟨command, execution_time_ms, success, error_message⟩]
  else []

/-- Echo/prompt stripping of the captured output (source lines 260-263). -/
def stripEcho (output : String) : String :=
  let output_lines := pySplitLines output
  if output_lines.length > 2 then
    String.intercalate "\n" ((output_lines.drop 1).dropLast)
  else output

/-- `HuaweiSSHClient.execute_command` (source lines 202-277).
Control flow of the source: `_validate_command` raises first (before the
connection check, the lock, and any use of the shell); a failed
`connect()` raises next (still before the audited try/finally); only the
locked execution region runs the `try ... finally _log_command_execution`
block, so exactly that region produces an audit attempt. -/
def execute_command (env : ExecEnv) (elapsed_ms : Nat) (command : String) :
    ExecOutcome :=
  if is_command_allowed command = false then
    ⟨Except.error ExecError.validationRejected, false, 0, []⟩
  else if env.connectOk = false then
    ⟨Except.error ExecError.connectFailed, true, 0, []⟩
  else
    match env.shellOutput with
    | some raw =>
      ⟨Except.ok (stripEcho raw), true, 1,
        _log_command_execution env command elapsed_ms true none⟩
    | none =>
      ⟨Except.error ExecError.execFailed, true, 1,
        _log_command_execution env command elapsed_ms false (some env.errMsg)⟩

/-! ## Regex engine

A small backtracking matcher covering exactly the constructs of the
patterns in app/services/parser.py: character classes, literals
(optionally case-insensitive via class predicates), concatenation,
alternation, lazy `.*?` (newline-free, as Python `.` without DOTALL),
greedy `*`/`+` over a class, and numbered capture groups over those.
Results are enumerated in Python's backtracking order (alternatives left
to right, lazy stars shortest first, greedy stars longest first), so the
head of the enumeration is the match Python returns. -/

inductive RE where
  | eps : RE
  | cls : (Char → Bool) → RE
  | seq : RE → RE → RE
  | alt : RE → RE → RE
  | starCls : (Char → Bool) → Bool → RE
  | grp : Nat → RE → RE

/-- Length of the maximal leading run of characters satisfying `p`. -/
def charRun (p : Char → Bool) : List Char → Nat
  | [] => 0
  | c :: cs => if p c then charRun p cs + 1 else 0

/-- All ways `r` can match a leading segment of `s`, in backtracking
order; each result carries the captured groups and the remaining input. -/
def reMatches : RE → List Char → List (List (Nat × List Char) × List Char)
  | RE.eps, s => [([], s)]
  | RE.cls _, [] => []
  | RE.cls p, c :: cs => if p c then [([], cs)] else []
  | RE.seq a b, s =>
    (reMatches a s).flatMap (fun pr =>
      (reMatches b pr.2).map (fun qr => (pr.1 ++ qr.1, qr.2)))
  | RE.alt a b, s => reMatches a s ++ reMatches b s
  | RE.starCls p lazy, s =>
    let n := charRun p s
    let ks := if lazy then List.range (n + 1) else (List.range (n + 1)).reverse
    ks.map (fun k => (([] : List (Nat × List Char)), s.drop k))
  | RE.grp n a, s =>
    (reMatches a s).map (fun pr =>
      ((n, s.take (s.length - pr.2.length)) :: pr.1, pr.2))

/-- Model of `re.match(pattern, s)`: anchored at the start; `some caps`
with the captured groups of the first (Python-order) match. -/
def reMatch (r : RE) (s : String) : Option (List (Nat × List Char)) :=
  ((reMatches r s.data).head?).map (fun pr => pr.1)

/-- Auxiliary scan of `re.search`: try each start position left to right. -/
def reSearchAux (r : RE) : List Char → Option (List (Nat × List Char))
  | [] => ((reMatches r []).head?).map (fun pr => pr.1)
  | c :: cs =>
    match (reMatches r (c :: cs)).head? with
    | some pr => some pr.1
    | none => reSearchAux r cs

/-- Model of `re.search(pattern, s)`: leftmost match. -/
def reSearch (r : RE) (s : String) : Option (List (Nat × List Char)) :=
  reSearchAux r s.data

/-- Captured text of group `n` (as written by the first capture of `n`). -/
def reGroup (n : Nat) (caps : List (Nat × List Char)) : Option String :=
  (caps.find? (fun pr => pr.1 == n)).map (fun pr => (⟨pr.2⟩ : String))

/-- Case-sensitive literal. -/
def reLit (t : String) : RE :=
  t.data.foldr (fun c acc => RE.seq (RE.cls (fun x => x == c)) acc) RE.eps

/-- Case-insensitive literal (`re.IGNORECASE`). -/
def reLitI (t : String) : RE :=
  t.data.foldr (fun c acc => RE.seq (RE.cls (fun x => x.toLower == c.toLower)) acc)
    RE.eps

/-- Greedy `class+`. -/
def rePlus (p : Char → Bool) : RE := RE.seq (RE.cls p) (RE.starCls p false)

/-- Lazy `.*?` as Python interprets it without DOTALL: any run of
non-newline characters, shortest first. -/
def reLazyGap : RE := RE.starCls (fun c => !(c == '\n')) true

/-- Greedy `\s*`. -/
def reSpaces0 : RE := RE.starCls pyIsSpaceChar false

/-- Greedy `\s+`. -/
def reSpaces1 : RE := rePlus pyIsSpaceChar

/-- Concatenation of a pattern list. -/
def reSeq (l : List RE) : RE := l.foldr RE.seq RE.eps

/-! ## Patterns of app/services/parser.py -/

/-- `^([\d\.]+)\s+(\d+)\s+(\d+)\s+(\d+)\s+(\d+)\s+(\d+)\s+([\d:]+|Never)\s+(\w+)`
(parse_bgp_peer, source line 64). -/
def P_peer : RE :=
  reSeq
    [ RE.grp 1 (rePlus (fun c => pyIsDigit c || c = '.')), reSpaces1,
      RE.grp 2 (rePlus pyIsDigit), reSpaces1,
      RE.grp 3 (rePlus pyIsDigit), reSpaces1,
      RE.grp 4 (rePlus pyIsDigit), reSpaces1,
      RE.grp 5 (rePlus pyIsDigit), reSpaces1,
      RE.grp 6 (rePlus pyIsDigit), reSpaces1,
      RE.grp 7 (RE.alt (rePlus (fun c => pyIsDigit c || c = ':')) (reLit "Never")),
      reSpaces1,
      RE.grp 8 (rePlus pyWordChar) ]

/-- `(?:received|Received).*?:\s*(\d+)` with IGNORECASE (source line 121). -/
def P_received : RE :=
  reSeq
    [ RE.alt (reLitI "received") (reLitI "Received"), reLazyGap, reLit ":",
      reSpaces0, RE.grp 1 (rePlus pyIsDigit) ]

/-- `(?:advertised|Sent|sent).*?:\s*(\d+)` with IGNORECASE (source line 122). -/
def P_advertised : RE :=
  reSeq
    [ RE.alt (reLitI "advertised") (RE.alt (reLitI "Sent") (reLitI "sent")),
      reLazyGap, reLit ":", reSpaces0, RE.grp 1 (rePlus pyIsDigit) ]

/-- Pattern `^([A-Za-z0-9\-\/\.]+)\s+current state\s*:\s*(\w+)` of
parse_interface (source line 310; the class is letters, digits, dash,
slash, dot). -/
def P_iface_state : RE :=
  reSeq
    [ RE.grp 1 (rePlus (fun c => c.isAlpha || pyIsDigit c || c = '-' || c = '/' || c = '.')),
      reSpaces1, reLit "current state", reSpaces0, reLit ":", reSpaces0,
      RE.grp 2 (rePlus pyWordChar) ]

/-- `Description:\s*(.+)` (parse_interface, source line 323). -/
def P_desc : RE :=
  reSeq [ reLit "Description:", reSpaces0, RE.grp 1 (rePlus (fun c => !(c = '\n'))) ]

/-- `Input.*?rate.*?:\s*([\d]+)\s*(?:bps|Bps)` with IGNORECASE (source line 374). -/
def P_input_rate : RE :=
  reSeq
    [ reLitI "Input", reLazyGap, reLitI "rate", reLazyGap, reLit ":", reSpaces0,
      RE.grp 1 (rePlus pyIsDigit), reSpaces0, RE.alt (reLitI "bps") (reLitI "Bps") ]

/-- `Output.*?rate.*?:\s*([\d]+)\s*(?:bps|Bps)` with IGNORECASE (source line 377). -/
def P_output_rate : RE :=
  reSeq
    [ reLitI "Output", reLazyGap, reLitI "rate", reLazyGap, reLit ":", reSpaces0,
      RE.grp 1 (rePlus pyIsDigit), reSpaces0, RE.alt (reLitI "bps") (reLitI "Bps") ]

/-- `Input.*?(\d+)\s*pps` with IGNORECASE (source line 386). -/
def P_input_pps : RE :=
  reSeq [ reLitI "Input", reLazyGap, RE.grp 1 (rePlus pyIsDigit), reSpaces0,
          reLitI "pps" ]

/-- `Output.*?(\d+)\s*pps` with IGNORECASE (source line 387). -/
def P_output_pps : RE :=
  reSeq [ reLitI "Output", reLazyGap, RE.grp 1 (rePlus pyIsDigit), reSpaces0,
          reLitI "pps" ]

/-- `Input errors:\s*(\d+)` with IGNORECASE (source line 395). -/
def P_input_errors : RE :=
  reSeq [ reLitI "Input errors:", reSpaces0, RE.grp 1 (rePlus pyIsDigit) ]

/-- `Output errors:\s*(\d+)` with IGNORECASE (source line 396). -/
def P_output_errors : RE :=
  reSeq [ reLitI "Output errors:", reSpaces0, RE.grp 1 (rePlus pyIsDigit) ]

/-- `Input.*?discard.*?:\s*(\d+)` with IGNORECASE (source line 404). -/
def P_input_discards : RE :=
  reSeq [ reLitI "Input", reLazyGap, reLitI "discard", reLazyGap, reLit ":",
          reSpaces0, RE.grp 1 (rePlus pyIsDigit) ]

/-- `Output.*?discard.*?:\s*(\d+)` with IGNORECASE (source line 405). -/
def P_output_discards : RE :=
  reSeq [ reLitI "Output", reLazyGap, reLitI "discard", reLazyGap, reLit ":",
          reSpaces0, RE.grp 1 (rePlus pyIsDigit) ]

/-- `BW:\s*(\d+)\s*([KMG]bps)` with IGNORECASE (source line 413). -/
def P_bw : RE :=
  reSeq
    [ reLitI "BW:", reSpaces0, RE.grp 1 (rePlus pyIsDigit), reSpaces0,
      RE.grp 2 (RE.seq
        (RE.cls (fun c => c.toLower = 'k' || c.toLower = 'm' || c.toLower = 'g'))
        (reLitI "bps")) ]

/-- `(\d+)d` (uptime days, source line 464). -/
def P_days : RE := reSeq [ RE.grp 1 (rePlus pyIsDigit), reLit "d" ]

/-- `(\d+)h` (uptime hours, source line 465). -/
def P_hours : RE := reSeq [ RE.grp 1 (rePlus pyIsDigit), reLit "h" ]

/-- `(\d+)m` (uptime minutes, source line 466). -/
def P_minutes : RE := reSeq [ RE.grp 1 (rePlus pyIsDigit), reLit "m" ]

/-! ## Telemetry records (app/models) -/

/-- `BGPSession` dataclass (app/models/bgp.py) restricted to the fields the
collector fills; timestamps stay in the database model. -/
structure BGPSession where
  peer_ip : String
  peer_asn : String
  status : String
  peer_description : Option String
  uptime_seconds : Int
  prefixes_received : Int
  prefixes_sent : Int
deriving DecidableEq

/-- `Interface` dataclass (app/models/interface.py).  The float utilization
percentages are modelled exactly as rationals. -/
structure InterfaceRec where
  name : String
  status : String
  description : Option String
  bandwidth_capacity : Int
  bandwidth_in_bps : Int
  bandwidth_out_bps : Int
  packets_in_pps : Int
  packets_out_pps : Int
  errors_in : Int
  errors_out : Int
  discards_in : Int
  discards_out : Int
  utilization_in_percent : Rat
  utilization_out_percent : Rat
deriving DecidableEq

/-- The statistics dictionary returned by `parse_interface_statistics` and
`collect_interface_statistics`. -/
structure StatsDict where
  bandwidth_in_bps : Int
  bandwidth_out_bps : Int
  packets_in_pps : Int
  packets_out_pps : Int
  errors_in : Int
  errors_out : Int
  discards_in : Int
  discards_out : Int
  bandwidth_capacity : Int
deriving DecidableEq

/-- The all-zero statistics dictionary (source lines 355-365 and 93-103). -/
def zeroStats : StatsDict := ⟨0, 0, 0, 0, 0, 0, 0, 0, 0⟩

/-- The dictionary returned by `parse_bgp_routing_table_peer`. -/
structure PrefixCounts where
  prefixes_received : Int
  prefixes_sent : Int
deriving DecidableEq

/-! ## Output parsers (app/services/parser.py) -/

/-- One step of `re.sub(pattern, "", name)` for the capacity-suffix
patterns: at a position starting with a parenthesis, try to consume
`(` digits `unit` `)` where the unit letter satisfies `unitOk`. -/
def matchCapSuffix (unitOk : Char → Bool) : List Char → Option (List Char)
  | '(' :: rest =>
    let n := charRun pyIsDigit rest
    if n > 0 then
      match rest.drop n with
      | u :: ')' :: r => if unitOk u then some r else none
      | _ => none
    else none
  | _ => none

/-- Fuel-indexed scan of `re.sub(pattern, "", s)`: each step either deletes
one matched occurrence (which consumes at least one character, so fuel of
the input length suffices) or keeps one character. -/
def pySubCapAux (unitOk : Char → Bool) : Nat → List Char → List Char
  | _, [] => []
  | 0, l => l
  | fuel + 1, c :: cs =>
    match matchCapSuffix unitOk (c :: cs) with
    | some r => pySubCapAux unitOk fuel r
    | none => c :: pySubCapAux unitOk fuel cs

/-- Model of `re.sub(r"\(\d+G\)", "", s)` and `re.sub(r"\(\d+[GM]\)", "", s)`
(source lines 181 and 255): delete every non-overlapping occurrence,
scanning left to right. -/
def pySubCap (unitOk : Char → Bool) (l : List Char) : List Char :=
  pySubCapAux unitOk l.length l

/-- `_parse_uptime`'s try-block (source lines 452-476); `none` models an
exception escaping to the surrounding `except`. -/
def uptimeContrib (p : RE) (mult : Int) (s : String) : Option Int :=
  match reSearch p s with
  | none => some 0
  | some caps =>
    match reGroup 1 caps with
    | none => some 0
    | some g => (pyInt? g).map (fun v => v * mult)

/-- The days/hours/minutes accumulation of `_parse_uptime`
(source lines 463-476). -/
def uptimeDHM (s : String) : Option Int := do
  let d ← uptimeContrib P_days 86400 s
  let h ← uptimeContrib P_hours 3600 s
  let m ← uptimeContrib P_minutes 60 s
  pure (d + h + m)

/-- Body of `_parse_uptime`'s try block (source lines 452-476). -/
def uptimeTryBody (s : String) : Option Int :=
  if pyContainsChar s ':' then
    let parts := pySplitColon s
    if parts.length = 3 then
      match parts with
      | [h, m, sec] => do
        let hv ← pyInt? h
        let mv ← pyInt? m
        let sv ← pyInt? sec
        pure (hv * 3600 + mv * 60 + sv)
      | _ => none
    else if parts.length = 2 then
      match parts with
      | [m, sec] => do
        let mv ← pyInt? m
        let sv ← pyInt? sec
        pure (mv * 60 + sv)
      | _ => none
    else uptimeDHM s
  else uptimeDHM s

/-- `_parse_uptime` (source lines 434-480): empty or any-case "Never" give
0; otherwise the try block runs and any exception yields 0. -/
def _parse_uptime (uptime_str : String) : Int :=
  if uptime_str = "" || pyLower uptime_str = "never" then 0
  else (uptimeTryBody uptime_str).getD 0

/-- The `has_bgp_data` pre-check of `parse_bgp_peer` (source lines 43-51). -/
def hasBGPData (lines : List String) : Bool :=
  lines.any (fun line =>
    containsSub line "BGP" || containsSub line "Peer" ||
      line.data.any pyIsDigit)

/-- Per-line step of `parse_bgp_peer`'s loop (source lines 53-88): skip
rules, then the peer-row pattern; `none` means the line contributes no
session. -/
def peerLineRecord (line0 : String) : Option BGPSession :=
  let line := pyStrip line0
  if line = "" || containsSub line "Peer" || containsSub line "BGP" ||
      containsSub line "---" then none
  else if pyStartsWith line "<" || pyStartsWith line ">" then none
  else
    match reMatch P_peer line with
    | none => none
    | some caps =>
      let peer_ip := (reGroup 1 caps).getD ""
      let asn := (reGroup 3 caps).getD ""
      let uptime_str := (reGroup 7 caps).getD ""
      let status := (reGroup 8 caps).getD ""
      some ⟨peer_ip, asn, status, none, _parse_uptime uptime_str, 0, 0⟩

/-- `parse_bgp_peer` (source lines 17-97).  Total: the Python body never
raises on any input (the only fallible operations are the regex calls and
`_parse_uptime`, both total), and the outer try/except would degrade to
the sessions collected so far in any case. -/
def parse_bgp_peer (output : String) : List BGPSession :=
  let lines := pySplitLines (pyStrip output)
  if hasBGPData lines = false then []
  else lines.filterMap peerLineRecord

/-- `parse_bgp_routing_table_peer` (source lines 100-138): two
case-insensitive searches over the whole output; missing matches leave the
zero defaults.  The captured text is all digits, so `int()` cannot raise;
a failed conversion is modelled by the 0 default the dict started with. -/
def parse_bgp_routing_table_peer (output : String) : PrefixCounts :=
  let rec_v :=
    match reSearch P_received output with
    | some caps => ((reGroup 1 caps).bind pyInt?).getD 0
    | none => 0
  let adv_v :=
    match reSearch P_advertised output with
    | some caps => ((reGroup 1 caps).bind pyInt?).getD 0
    | none => 0
  ⟨rec_v, adv_v⟩

/-- Per-line step of `parse_interface_brief` (source lines 161-196). -/
def briefLineRecord (line0 : String) : Option InterfaceRec :=
  let line := pyStrip line0
  if line = "" || containsSub line "Interface" || containsSub line "PHY" then none
  else if pyStartsWith line "*down" || pyStartsWith line "^down" then none
  else if pyStartsWith line "(" || pyStartsWith line "InUti" then none
  else
    match splitWS line.data with
    | p0 :: p1 :: p2 :: _ =>
      let name : String := ⟨pySubCap (fun u => u = 'G') p0⟩
      let phy_status := pyLower ⟨p1⟩
      let protocol_status := pyLower ⟨p2⟩
      let status := if phy_status = "up" && protocol_status = "up" then "up" else "down"
      some ⟨name, status, none, 0, 0, 0, 0, 0, 0, 0, 0, 0, 0, 0⟩
    | _ => none

/-- `parse_interface_brief` (source lines 141-202). -/
def parse_interface_brief (output : String) : List InterfaceRec :=
  (pySplitLines (pyStrip output)).filterMap briefLineRecord

/-- Per-line step of `parse_interface_description` (source lines 228-275). -/
def descLineRecord (line : String) : Option InterfaceRec :=
  let line_stripped := pyStrip line
  if line_stripped = "" then none
  else if containsSub line_stripped "Interface" && containsSub line_stripped "PHY" then
    none
  else if pyStartsWith line_stripped "---" || pyStartsWith line_stripped "===" then
    none
  else if pyStartsWith line_stripped "(" || pyStartsWith line_stripped "*down" then
    none
  else if containsSub (pyLower line_stripped) "current state" then none
  else
    match splitWSMax 3 line_stripped.data with
    | p0 :: p1 :: p2 :: rest =>
      let name : String := ⟨pySubCap (fun u => u = 'G' || u = 'M') p0⟩
      let phy_status := pyLower ⟨p1⟩
      let protocol_status := pyLower ⟨p2⟩
      let description :=
        match rest with
        | p3 :: _ => some (pyStrip ⟨p3⟩)
        | [] => none
      let status := if phy_status = "up" && protocol_status = "up" then "up" else "down"
      some ⟨name, status, description, 0, 0, 0, 0, 0, 0, 0, 0, 0, 0, 0⟩
    | _ => none

/-- `parse_interface_description` (source lines 205-281). -/
def parse_interface_description (output : String) : List InterfaceRec :=
  (pySplitLines (pyStrip output)).filterMap descLineRecord

/-- Description lookup of `parse_interface` (source lines 319-326): the
first line containing "Description" is searched and the loop breaks. -/
def findDescLine : List String → Option String
  | [] => none
  | l :: ls =>
    if containsSub l "Description" then
      match reSearch P_desc l with
      | some caps => (reGroup 1 caps).map pyStrip
      | none => none
    else findDescLine ls

/-- `parse_interface` (source lines 284-339): name and status are read from
the first line only; at most one record is ever produced. -/
def parse_interface (output : String) : List InterfaceRec :=
  let lines := pySplitLines (pyStrip output)
  match lines with
  | [] => []
  | first_line :: _ =>
    match reMatch P_iface_state first_line with
    | none => []
    | some caps =>
      let name := (reGroup 1 caps).getD ""
      let status := pyLower ((reGroup 2 caps).getD "")
      let description := findDescLine lines
      [⟨name, status, description, 0, 0, 0, 0, 0, 0, 0, 0, 0, 0, 0⟩]

/-- Capacity normalization of `parse_interface_statistics`
(source lines 413-424): `K`/`M`/`G` suffixes scale to bits per second. -/
def bwCapacity (value : Int) (unit : String) : Int :=
  let u := pyUpper unit
  if containsSub u "GBPS" || containsSub u "G" then value * 1000000000
  else if containsSub u "MBPS" || containsSub u "M" then value * 1000000
  else if containsSub u "KBPS" || containsSub u "K" then value * 1000
  else value

/-- Value of one statistics search: captured digits, 0 when absent. -/
def statValue (p : RE) (output : String) : Int :=
  match reSearch p output with
  | some caps => ((reGroup 1 caps).bind pyInt?).getD 0
  | none => 0

/-- `parse_interface_statistics` (source lines 342-431). -/
def parse_interface_statistics (output : String) : StatsDict :=
  let cap :=
    match reSearch P_bw output with
    | some caps =>
      bwCapacity (((reGroup 1 caps).bind pyInt?).getD 0) ((reGroup 2 caps).getD "")
    | none => 0
  ⟨ statValue P_input_rate output, statValue P_output_rate output,
    statValue P_input_pps output, statValue P_output_pps output,
    statValue P_input_errors output, statValue P_output_errors output,
    statValue P_input_discards output, statValue P_output_discards output,
    cap ⟩

/-- Enrichment of one interface inside `collect_interfaces`
(app/services/interface_collector.py lines 43-69): statistics fields are
copied in and utilization is derived when capacity is positive. -/
def enrichInterface (stats : StatsDict) (i : InterfaceRec) : InterfaceRec :=
  let base : InterfaceRec :=
    ⟨ i.name, i.status, i.description, stats.bandwidth_capacity,
      stats.bandwidth_in_bps, stats.bandwidth_out_bps, stats.packets_in_pps,
      stats.packets_out_pps, stats.errors_in, stats.errors_out,
      stats.discards_in, stats.discards_out, i.utilization_in_percent,
      i.utilization_out_percent ⟩
  if stats.bandwidth_capacity > 0 then
    ⟨ base.name, base.status, base.description, base.bandwidth_capacity,
      base.bandwidth_in_bps, base.bandwidth_out_bps, base.packets_in_pps,
      base.packets_out_pps, base.errors_in, base.errors_out, base.discards_in,
      base.discards_out,
      ((stats.bandwidth_in_bps : Rat) / (stats.bandwidth_capacity : Rat)) * 100,
      ((stats.bandwidth_out_bps : Rat) / (stats.bandwidth_capacity : Rat)) * 100 ⟩
  else base

/-- `collect_interfaces` (app/services/interface_collector.py lines 19-74):
parse the primary listing, then enrich each record; `statsFor` abstracts
the per-interface supplementary command (already defaulting to zeros on
failure, source lines 87-103). -/
def collect_interfaces (statsFor : String → StatsDict) (primaryOutput : String) :
    List InterfaceRec :=
  (parse_interface primaryOutput).map (fun i => enrichInterface (statsFor i.name) i)

/-! ## Database state (schema tables touched by the reconcilers and alerts) -/

/-- One row of the `bgp_sessions` current-state table. -/
structure BGPRow where
  peer_ip : String
  peer_asn : String
  peer_description : Option String
  status : String
  uptime_seconds : Int
  prefixes_received : Int
  prefixes_sent : Int
  last_state_change : Nat
  last_updated : Nat
  created_at : Nat
deriving DecidableEq

/-- One row of the `interfaces` current-state table. -/
structure InterfaceRow where
  name : String
  description : Option String
  status : String
  bandwidth_capacity : Int
  bandwidth_in_bps : Int
  bandwidth_out_bps : Int
  packets_in_pps : Int
  packets_out_pps : Int
  errors_in : Int
  errors_out : Int
  discards_in : Int
  discards_out : Int
  utilization_in_percent : Rat
  utilization_out_percent : Rat
  last_state_change : Nat
  last_updated : Nat
  created_at : Nat
deriving DecidableEq

/-- One row of the append-only `events` table. -/
structure EventRow where
  timestamp : Nat
  event_type : String
  severity : String
  source : String
  message : String
  details : String
deriving DecidableEq

/-- One row of the append-only `bgp_status_history` table. -/
structure BGPHistoryRow where
  peer_ip : String
  status : String
  prefixes_received : Int
  prefixes_sent : Int
  timestamp : Nat
deriving DecidableEq

/-- One row of the append-only `interface_traffic_history` table. -/
structure IfHistoryRow where
  interface_name : String
  bandwidth_in_bps : Int
  bandwidth_out_bps : Int
  packets_in_pps : Int
  packets_out_pps : Int
  errors_in : Int
  errors_out : Int
  utilization_in_percent : Rat
  utilization_out_percent : Rat
  timestamp : Nat
deriving DecidableEq

/-- The SQLite database restricted to the tables the reconcilers and the
alert evaluator read or write. -/
structure DBState where
  bgp_sessions : List BGPRow
  interfaces : List InterfaceRow
  events : List EventRow
  bgp_status_history : List BGPHistoryRow
  interface_traffic_history : List IfHistoryRow
deriving DecidableEq

/-! ## State reconcilers (app/services/bgp_collector.py,
app/services/interface_collector.py) -/

/-- `_create_bgp_event` (bgp_collector.py lines 188-224): event type and
severity derive from the lowercased new status. -/
def _create_bgp_event (peer_ip old_status new_status : String) (timestamp : Nat) :
    EventRow :=
  let event_type :=
    if pyLower new_status = "established" then "bgp_up"
    else if pyLower new_status = "down" then "bgp_down"
    else "bgp_flapping"
  let severity :=
    if pyLower new_status = "established" then "info"
    else if pyLower new_status = "down" then "critical"
    else "warning"
  ⟨timestamp, event_type, severity, "BGP:" ++ peer_ip,
    "BGP peer " ++ peer_ip ++ " mudou de " ++ old_status ++ " para " ++ new_status,
    "Peer IP: " ++ peer_ip ++ ", Old status: " ++ old_status ++ ", New status: "
      ++ new_status⟩

/-- `_create_interface_event` (interface_collector.py lines 249-285). -/
def _create_interface_event (interface_name old_status new_status : String)
    (timestamp : Nat) : EventRow :=
  let event_type :=
    if pyLower new_status = "up" then "interface_up"
    else if pyLower new_status = "down" || pyLower new_status = "admin_down" then
      "interface_down"
    else "interface_flapping"
  let severity :=
    if pyLower new_status = "up" then "info"
    else if pyLower new_status = "down" || pyLower new_status = "admin_down" then
      "critical"
    else "warning"
  ⟨timestamp, event_type, severity, "Interface:" ++ interface_name,
    "Interface " ++ interface_name ++ " mudou de " ++ old_status ++ " para "
      ++ new_status,
    "Interface: " ++ interface_name ++ ", Old status: " ++ old_status
      ++ ", New status: " ++ new_status⟩

/-- The history INSERT of the BGP batch loop (bgp_collector.py lines 162-176);
its values come from the session alone. -/
def bgpHistoryRow (now : Nat) (s : BGPSession) : BGPHistoryRow :=
  ⟨s.peer_ip, s.status, s.prefixes_received, s.prefixes_sent, now⟩

/-- The UPDATE of an existing `bgp_sessions` row (bgp_collector.py
lines 119-135): status, uptime, prefix counts and `last_updated` change;
key, ASN, description, `last_state_change` and `created_at` are kept. -/
def bgpUpdateRow (now : Nat) (s : BGPSession) (r : BGPRow) : BGPRow :=
  ⟨r.peer_ip, r.peer_asn, r.peer_description, s.status, s.uptime_seconds,
    s.prefixes_received, s.prefixes_sent, r.last_state_change, now, r.created_at⟩

/-- The INSERT of a newly discovered session (bgp_collector.py lines 136-160). -/
def bgpNewRow (now : Nat) (s : BGPSession) : BGPRow :=
  ⟨s.peer_ip, s.peer_asn, s.peer_description, s.status, s.uptime_seconds,
    s.prefixes_received, s.prefixes_sent, now, now, now⟩

/-- One iteration of the `update_bgp_in_database` loop (bgp_collector.py
lines 96-176): SELECT by key, emit a transition event when the stored
status differs, UPDATE or INSERT the current-state row, and append one
history row unconditionally. -/
def processBGPRecord (now : Nat) (st : DBState) (s : BGPSession) : DBState :=
  match st.bgp_sessions.find? (fun r => r.peer_ip == s.peer_ip) with
  | some existing =>
    let evs :=
      if existing.status ≠ s.status then
        st.events ++ [_create_bgp_event s.peer_ip existing.status s.status now]
      else st.events
    let rows := st.bgp_sessions.map (fun r =>
      if r.peer_ip == s.peer_ip then bgpUpdateRow now s r else r)
    ⟨rows, st.interfaces, evs, st.bgp_status_history ++ [bgpHistoryRow now s],
      st.interface_traffic_history⟩
  | none =>
    ⟨st.bgp_sessions ++ [bgpNewRow now s], st.interfaces, st.events,
      st.bgp_status_history ++ [bgpHistoryRow now s],
      st.interface_traffic_history⟩

/-- The BGP batch loop under the `with db.get_connection()` block: `none`
models a per-record exception, which the loop re-raises (bgp_collector.py
lines 178-181) so the context manager rolls the transaction back
(database.py lines 70-79).  `raises` abstracts which record's cursor
operations raise. -/
def runBGPBatch (raises : BGPSession → Bool) (now : Nat) :
    DBState → List BGPSession → Option DBState
  | st, [] => some st
  | st, s :: rest =>
    if raises s then none
    else runBGPBatch raises now (processBGPRecord now st s) rest

/-- `update_bgp_in_database` (bgp_collector.py lines 77-185): empty
snapshots return before opening a transaction; otherwise the whole batch
commits, or a raised record rolls everything back. -/
def update_bgp_in_database (raises : BGPSession → Bool) (now : Nat)
    (st : DBState) (sessions : List BGPSession) : DBState :=
  if sessions.isEmpty then st
  else
    match runBGPBatch raises now st sessions with
    | some st2 => st2
    | none => st

/-- The history INSERT of the interface batch loop (interface_collector.py
lines 216-237). -/
def ifHistoryRow (now : Nat) (i : InterfaceRec) : IfHistoryRow :=
  ⟨i.name, i.bandwidth_in_bps, i.bandwidth_out_bps, i.packets_in_pps,
    i.packets_out_pps, i.errors_in, i.errors_out, i.utilization_in_percent,
    i.utilization_out_percent, now⟩

/-- The UPDATE of an existing `interfaces` row (interface_collector.py
lines 149-179). -/
def ifUpdateRow (now : Nat) (i : InterfaceRec) (r : InterfaceRow) : InterfaceRow :=
  ⟨r.name, i.description, i.status, i.bandwidth_capacity, i.bandwidth_in_bps,
    i.bandwidth_out_bps, i.packets_in_pps, i.packets_out_pps, i.errors_in,
    i.errors_out, i.discards_in, i.discards_out, i.utilization_in_percent,
    i.utilization_out_percent, r.last_state_change, now, r.created_at⟩

/-- The INSERT of a newly discovered interface (interface_collector.py
lines 180-214). -/
def ifNewRow (now : Nat) (i : InterfaceRec) : InterfaceRow :=
  ⟨i.name, i.description, i.status, i.bandwidth_capacity, i.bandwidth_in_bps,
    i.bandwidth_out_bps, i.packets_in_pps, i.packets_out_pps, i.errors_in,
    i.errors_out, i.discards_in, i.discards_out, i.utilization_in_percent,
    i.utilization_out_percent, now, now, now⟩

/-- One iteration of the `update_interfaces_in_database` loop
(interface_collector.py lines 125-237). -/
def processIfRecord (now : Nat) (st : DBState) (i : InterfaceRec) : DBState :=
  match st.interfaces.find? (fun r => r.name == i.name) with
  | some existing =>
    let evs :=
      if existing.status ≠ i.status then
        st.events ++ [_create_interface_event i.name existing.status i.status now]
      else st.events
    let rows := st.interfaces.map (fun r =>
      if r.name == i.name then ifUpdateRow now i r else r)
    ⟨st.bgp_sessions, rows, evs, st.bgp_status_history,
      st.interface_traffic_history ++ [ifHistoryRow now i]⟩
  | none =>
    ⟨st.bgp_sessions, st.interfaces ++ [ifNewRow now i], st.events,
      st.bgp_status_history, st.interface_traffic_history ++ [ifHistoryRow now i]⟩

/-- The interface batch loop; `none` models a per-record exception, which
is re-raised (interface_collector.py lines 239-242) for rollback. -/
def runIfBatch (raises : InterfaceRec → Bool) (now : Nat) :
    DBState → List InterfaceRec → Option DBState
  | st, [] => some st
  | st, i :: rest =>
    if raises i then none
    else runIfBatch raises now (processIfRecord now st i) rest

/-- `update_interfaces_in_database` (interface_collector.py lines 106-246). -/
def update_interfaces_in_database (raises : InterfaceRec → Bool) (now : Nat)
    (st : DBState) (interfaces : List InterfaceRec) : DBState :=
  if interfaces.isEmpty then st
  else
    match runIfBatch raises now st interfaces with
    | some st2 => st2
    | none => st

/-! ## Alert evaluator (app/services/alert_manager.py) -/

/-- `create_event` (alert_manager.py lines 163-190) as the row it INSERTs. -/
def alertEventRow (timestamp : Nat) (event_type severity source message details :
    String) : EventRow :=
  ⟨timestamp, event_type, severity, source, message, details⟩

/-- `_has_recent_event` (alert_manager.py lines 193-225): a COUNT(*) over
events of the same type whose source LIKE-matches the filter and whose
timestamp lies inside the trailing window of `minutes` minutes. -/
def _has_recent_event (event_type source_filter : String) (minutes now : Nat)
    (events : List EventRow) : Bool :=
  events.any (fun e =>
    e.event_type == event_type && containsSub e.source source_filter &&
      decide (now < e.timestamp + minutes * 60))

/-- Candidate filter of `check_bgp_alerts` (alert_manager.py lines 49-53):
sessions whose status differs from 'Established'. -/
def bgpAlertCandidate (r : BGPRow) : Bool := !(r.status == "Established")

/-- Candidate filter of `check_interface_alerts` (lines 89-93). -/
def ifDownCandidate (r : InterfaceRow) : Bool :=
  r.status == "down" || r.status == "admin_down"

/-- Candidate filter of `check_error_thresholds` (lines 129-135). -/
def errorCandidate (threshold : Int) (r : InterfaceRow) : Bool :=
  decide (r.errors_in + r.errors_out > threshold) && r.status == "up"

/-- `check_bgp_alerts` (alert_manager.py lines 42-79): for each candidate,
suppress when a same-type LIKE-matching event exists in the last 5 minutes,
otherwise INSERT a `bgp_down`/critical event. -/
def check_bgp_alerts (now : Nat) (st : DBState) : DBState :=
  (st.bgp_sessions.filter bgpAlertCandidate).foldl
    (fun acc r =>
      if _has_recent_event "bgp_down" r.peer_ip 5 now acc.events then acc
      else
        ⟨acc.bgp_sessions, acc.interfaces,
          acc.events ++
            [alertEventRow now "bgp_down" "critical" ("BGP:" ++ r.peer_ip)
              ("Sessao BGP " ++ r.peer_ip ++ " esta " ++ r.status)
              ("ASN: " ++ r.peer_asn ++ ", Status: " ++ r.status)],
          acc.bgp_status_history, acc.interface_traffic_history⟩)
    st

/-- `check_interface_alerts` (alert_manager.py lines 82-117): 5-minute
window, `interface_down`/critical. -/
def check_interface_alerts (now : Nat) (st : DBState) : DBState :=
  (st.interfaces.filter ifDownCandidate).foldl
    (fun acc r =>
      if _has_recent_event "interface_down" r.name 5 now acc.events then acc
      else
        ⟨acc.bgp_sessions, acc.interfaces,
          acc.events ++
            [alertEventRow now "interface_down" "critical" ("Interface:" ++ r.name)
              ("Interface " ++ r.name ++ " esta " ++ r.status)
              ("Status: " ++ r.status)],
          acc.bgp_status_history, acc.interface_traffic_history⟩)
    st

/-- `check_error_thresholds` (alert_manager.py lines 120-160): candidates
are 'up' interfaces whose summed error counters exceed the configured
threshold; the suppression window is 10 minutes; emitted events are
`high_errors`/warning. -/
def check_error_thresholds (threshold : Int) (now : Nat) (st : DBState) : DBState :=
  (st.interfaces.filter (errorCandidate threshold)).foldl
    (fun acc r =>
      if _has_recent_event "high_errors" r.name 10 now acc.events then acc
      else
        ⟨acc.bgp_sessions, acc.interfaces,
          acc.events ++
            [alertEventRow now "high_errors" "warning" ("Interface:" ++ r.name)
              ("Interface " ++ r.name ++ " com alto nivel de erros")
              ("Total de erros, threshold, input, output")],
          acc.bgp_status_history, acc.interface_traffic_history⟩)
    st

/-! ## Verification predicates -/

/-- After a successful reconciliation every snapshot record's key is
present in the current-state table with exactly the observed status. -/
def BGPStatusesSet (st : DBState) (sessions : List BGPSession) : Prop :=
  ∀ s ∈ sessions,
    (st.bgp_sessions.filter (fun r => r.peer_ip == s.peer_ip)) ≠ [] ∧
    ∀ r ∈ st.bgp_sessions.filter (fun r => r.peer_ip == s.peer_ip),
      r.status = s.status

/-- Interface twin of `BGPStatusesSet`. -/
def IfStatusesSet (st : DBState) (interfaces : List InterfaceRec) : Prop :=
  ∀ i ∈ interfaces,
    (st.interfaces.filter (fun r => r.name == i.name)) ≠ [] ∧
    ∀ r ∈ st.interfaces.filter (fun r => r.name == i.name), r.status = i.status

/-! ## General helper lemmas -/

theorem filter_map_eq_of_invariant {α : Type} (l : List α) (f : α → α)
    (p : α → Bool) (h1 : ∀ a, p a = true → f a = a)
    (h2 : ∀ a, p (f a) = p a) : (l.map f).filter p = l.filter p := by
  induction l with
  | nil => rfl
  | cons a t ih =>
    simp only [List.map_cons, List.filter_cons]
    cases hpa : p a with
    | true => rw [h2 a, hpa, h1 a hpa, ih]
    | false =>
      rw [h2 a, hpa, ih]
      simp

theorem find?_eq_head_filter {α : Type} (p : α → Bool) (l : List α) :
    l.find? p = (l.filter p).head? := by
  induction l with
  | nil => rfl
  | cons a t ih =>
    cases hpa : p a with
    | true =>
      rw [List.find?_cons_of_pos _ hpa]
      simp [List.filter_cons, hpa]
    | false =>
      rw [List.find?_cons_of_neg _ (by simp [hpa])]
      rw [List.filter_cons, ih]
      simp only [hpa]
      simp

theorem string_append_cancel (p a b : String) (h : p ++ a = p ++ b) : a = b := by
  have hd : p.data ++ a.data = p.data ++ b.data := by
    have := congrArg String.data h
    simpa using this
  have hdata : a.data = b.data := List.append_cancel_left hd
  exact String.ext hdata

theorem string_append_ne (p a b : String) (h : a ≠ b) : p ++ a ≠ p ++ b :=
  fun hc => h (string_append_cancel p a b hc)

theorem isPrefixOf_self (l : List Char) : l.isPrefixOf l = true := by
  induction l with
  | nil => rfl
  | cons c cs ih => simp [List.isPrefixOf, ih]

theorem listInfixB_append_self (pre l : List Char) :
    listInfixB l (pre ++ l) = true := by
  induction pre with
  | nil =>
    simp only [List.nil_append]
    cases l with
    | nil => rfl
    | cons c cs => simp [listInfixB, isPrefixOf_self]
  | cons c cs ih => simp [listInfixB, ih]

theorem containsSub_self_suffixed (pre s : String) :
    containsSub (pre ++ s) s = true := by
  have : (pre ++ s).data = pre.data ++ s.data := by simp
  simp [containsSub, this, listInfixB_append_self]

theorem countP_singleton {α : Type} (p : α → Bool) (a : α) :
    List.countP p [a] = if p a then 1 else 0 := by
  cases h : p a <;> simp [List.countP_cons, h]

theorem countP_key_map_nodup {α : Type} (key : α → String) (l : List α)
    (hnd : (l.map key).Nodup) (a : α) (ha : a ∈ l) :
    l.countP (fun x => key x == key a) = 1 := by
  induction l with
  | nil => cases ha
  | cons x t ih =>
    rw [List.map_cons, List.nodup_cons] at hnd
    rcases List.mem_cons.mp ha with rfl | hat
    · have hzero : t.countP (fun y => key y == key a) = 0 := by
        rw [List.countP_eq_zero]
        intro y hy
        simp only [beq_iff_eq]
        intro hkey
        exact hnd.1 (hkey ▸ List.mem_map_of_mem key hy)
      rw [List.countP_cons, hzero]
      simp
    · have hne : key x ≠ key a := by
        intro hk
        exact hnd.1 (hk ▸ List.mem_map_of_mem key hat)
      rw [List.countP_cons, ih hnd.2 hat]
      simp [hne]

/-! ## Command gateway theorems -/

/-- C1: `execute(c)` fails with a validation rejection (raised before any
network I/O) iff the lowercased, stripped text of `c` does not start with
any allow-list entry, compared case-insensitively; the rejection outcome
is a function of the allow-list test alone, so the presence of deny-list
keywords anywhere in `c` has no effect. -/
theorem execute_rejects_iff_not_allowlisted :
    ∀ (env : ExecEnv) (ms : Nat) (c : String),
      ((execute_command env ms c).result = Except.error ExecError.validationRejected
        ↔ (ALLOWED_COMMANDS.any (fun allowed =>
            pyStartsWith (pyStrip (pyLower c)) (pyLower allowed))) = false)
      ∧ ((execute_command env ms c).result = Except.error ExecError.validationRejected →
          (execute_command env ms c).networkUsed = false)
      ∧ (∀ c2 : String, is_command_allowed c = is_command_allowed c2 →
          ((execute_command env ms c).result = Except.error ExecError.validationRejected
            ↔ (execute_command env ms c2).result
              = Except.error ExecError.validationRejected)) := by
  have main : ∀ (e : ExecEnv) (m : Nat) (d : String),
      (execute_command e m d).result = Except.error ExecError.validationRejected ↔
        is_command_allowed d = false := by
    intro e m d
    cases hA : is_command_allowed d with
    | false => simp [execute_command, hA]
    | true =>
      cases hC : e.connectOk with
      | false => simp [execute_command, hA, hC]
      | true =>
        cases hS : e.shellOutput with
        | none => simp [execute_command, hA, hC, hS]
        | some raw => simp [execute_command, hA, hC, hS]
  intro env ms c
  refine ⟨main env ms c, ?_, ?_⟩
  · intro hrej
    have hA : is_command_allowed c = false := (main env ms c).mp hrej
    simp [execute_command, hA]
  · intro c2 heq
    rw [main env ms c, main env ms c2, heq]

/-- Witness for C1: "display interface brief" contains the deny-list
keyword "interface " yet its rejection status agrees with that of
"display bgp peer", which contains none. -/
theorem execute_rejects_iff_not_allowlisted_witness :
    containsForbiddenKeyword "display interface brief" = true ∧
    ((execute_command ⟨true, some "out", true, "err"⟩ 3 "display interface brief").result
        = Except.error ExecError.validationRejected
      ↔ (execute_command ⟨true, some "out", true, "err"⟩ 3 "display bgp peer").result
        = Except.error ExecError.validationRejected) :=
  ⟨by decide,
    (execute_rejects_iff_not_allowlisted ⟨true, some "out", true, "err"⟩ 3
      "display interface brief").2.2 "display bgp peer" (by decide)⟩

/-- C4 counterexample: a validation-rejected call (`reset counters`) raises
before the audited region, so it produces zero audit-log attempts and zero
audit rows — not the "exactly one Command Audit row" the claim asserts for
every call. -/
theorem execute_audit_counterexample :
    (execute_command ⟨true, some "out", true, "err"⟩ 3 "reset counters").result
      = Except.error ExecError.validationRejected ∧
    (execute_command ⟨true, some "out", true, "err"⟩ 3 "reset counters").auditAttempts
      = 0 ∧
    (execute_command ⟨true, some "out", true, "err"⟩ 3 "reset counters").auditRecords
      = [] := by
  refine ⟨?_, by decide, by decide⟩
  have : is_command_allowed "reset counters" = false := by decide
  simp [execute_command, this]

/-- C4 (amended): a call that fails validation (or fails to connect) writes
no audit row; every call that reaches the locked execution region performs
exactly one audit-write attempt recording the command, the elapsed time,
the success flag, and the error text if any; and a failure of the audit
write itself is swallowed — it never changes the call's result. -/
theorem execute_audit_exactly_one_attempt :
    ∀ (env : ExecEnv) (ms : Nat) (c : String),
      (is_command_allowed c = true → env.connectOk = true →
        (execute_command env ms c).auditAttempts = 1 ∧
        (∀ raw : String, env.shellOutput = some raw →
          (execute_command env ms c).auditRecords =
            if env.auditWriteOk then [⟨c, ms, true, none⟩] else []) ∧
        (env.shellOutput = none →
          (execute_command env ms c).auditRecords =
            if env.auditWriteOk then [⟨c, ms, false, some env.errMsg⟩] else []))
      ∧ (∀ (co : Bool) (so : Option String) (aw1 aw2 : Bool) (em : String),
          (execute_command ⟨co, so, aw1, em⟩ ms c).result =
            (execute_command ⟨co, so, aw2, em⟩ ms c).result)
      ∧ (is_command_allowed c = false →
          (execute_command env ms c).auditAttempts = 0 ∧
          (execute_command env ms c).auditRecords = [] ∧
          (execute_command env ms c).networkUsed = false)
      ∧ (env.connectOk = false →
          (execute_command env ms c).auditAttempts = 0 ∧
          (execute_command env ms c).auditRecords = []) := by
  intro env ms c
  refine ⟨?_, ?_, ?_, ?_⟩
  · intro hA hC
    refine ⟨?_, ?_, ?_⟩
    · cases hS : env.shellOutput with
      | none => simp [execute_command, hA, hC, hS]
      | some raw => simp [execute_command, hA, hC, hS]
    · intro raw hS
      simp [execute_command, hA, hC, hS, _log_command_execution]
    · intro hS
      simp [execute_command, hA, hC, hS, _log_command_execution]
  · intro co so aw1 aw2 em
    cases hA : is_command_allowed c with
    | false => simp [execute_command, hA]
    | true =>
      cases co with
      | false => simp [execute_command, hA]
      | true => cases so with
        | none => simp [execute_command, hA]
        | some raw => simp [execute_command, hA]
  · intro hA
    simp [execute_command, hA]
  · intro hC
    cases hA : is_command_allowed c with
    | false => simp [execute_command, hA]
    | true => simp [execute_command, hA, hC]

/-- Witness for C4's amended theorem at a successful, a failing, and a
rejected concrete call. -/
theorem execute_audit_exactly_one_attempt_witness :
    ((execute_command ⟨true, some "raw", true, "err"⟩ 7 "display bgp peer").auditAttempts
      = 1 ∧
      (execute_command ⟨true, some "raw", true, "err"⟩ 7 "display bgp peer").auditRecords
        = [⟨"display bgp peer", 7, true, none⟩]) ∧
    ((execute_command ⟨true, some "raw", true, "err"⟩ 7 "undo something").auditAttempts
      = 0) := by
  have h := execute_audit_exactly_one_attempt ⟨true, some "raw", true, "err"⟩ 7
    "display bgp peer"
  have h2 := execute_audit_exactly_one_attempt ⟨true, some "raw", true, "err"⟩ 7
    "undo something"
  refine ⟨⟨(h.1 (by decide) rfl).1, ?_⟩, (h2.2.2.1 (by decide)).1⟩
  have := (h.1 (by decide) rfl).2.1 "raw" rfl
  simpa using this

/-! ## Parser theorems -/

/-- C9: uptime normalization maps "HH:MM:SS" to hours*3600 + minutes*60 +
seconds and compound "NdNhNm" to days*86400 + hours*3600 + minutes*60;
concretely "00:05:23" gives 323 and "1d00h05m" gives 86700, and "Never"
(any letter case) and the empty string give 0. -/
theorem parse_uptime_normalization :
    _parse_uptime "00:05:23" = 323 ∧
    _parse_uptime "1d00h05m" = 86700 ∧
    _parse_uptime "" = 0 ∧
    (∀ s : String, pyLower s = "never" → _parse_uptime s = 0) ∧
    (∀ (s f1 f2 f3 : String) (a b c2 : Int),
      pyContainsChar s ':' = true → pySplitColon s = [f1, f2, f3] →
      s ≠ "" → pyLower s ≠ "never" →
      pyInt? f1 = some a → pyInt? f2 = some b → pyInt? f3 = some c2 →
      _parse_uptime s = a * 3600 + b * 60 + c2) ∧
    (∀ (s gd gh gm : String) (dv hv mv : Int),
      pyContainsChar s ':' = false → s ≠ "" → pyLower s ≠ "never" →
      (reSearch P_days s).bind (reGroup 1) = some gd → pyInt? gd = some dv →
      (reSearch P_hours s).bind (reGroup 1) = some gh → pyInt? gh = some hv →
      (reSearch P_minutes s).bind (reGroup 1) = some gm → pyInt? gm = some mv →
      _parse_uptime s = dv * 86400 + hv * 3600 + mv * 60) := by
  refine ⟨by decide, by decide, by decide, ?_, ?_, ?_⟩
  · intro s h
    simp [_parse_uptime, h]
  · intro s f1 f2 f3 a b c2 hc hsplit hne hnever h1 h2 h3
    have hcond : (decide (s = "") || decide (pyLower s = "never")) = false := by
      simp [hne, hnever]
    simp only [_parse_uptime, hcond, Bool.false_eq_true, if_false]
    simp only [uptimeTryBody, hc, if_true, hsplit]
    simp [h1, h2, h3]
  · intro s gd gh gm dv hv mv hc hne hnever hd hdv hh hhv hm hmv
    have hcond : (decide (s = "") || decide (pyLower s = "never")) = false := by
      simp [hne, hnever]
    rcases hds : reSearch P_days s with _ | capsd
    · rw [hds] at hd; simp at hd
    · rw [hds] at hd
      simp only [Option.some_bind] at hd
      rcases hhs : reSearch P_hours s with _ | capsh
      · rw [hhs] at hh; simp at hh
      · rw [hhs] at hh
        simp only [Option.some_bind] at hh
        rcases hms : reSearch P_minutes s with _ | capsm
        · rw [hms] at hm; simp at hm
        · rw [hms] at hm
          simp only [Option.some_bind] at hm
          have e1 : uptimeContrib P_days 86400 s = some (dv * 86400) := by
            simp [uptimeContrib, hds, hd, hdv]
          have e2 : uptimeContrib P_hours 3600 s = some (hv * 3600) := by
            simp [uptimeContrib, hhs, hh, hhv]
          have e3 : uptimeContrib P_minutes 60 s = some (mv * 60) := by
            simp [uptimeContrib, hms, hm, hmv]
          simp only [_parse_uptime, hcond, Bool.false_eq_true, if_false,
            uptimeTryBody, hc, Bool.true_eq_false, uptimeDHM, e1, e2, e3]
          simp

/-- Witness for C9 at "NeVeR", an HH:MM:SS input, and an NdNhNm input. -/
theorem parse_uptime_normalization_witness :
    _parse_uptime "NeVeR" = 0 ∧ _parse_uptime "01:02:03" = 3723 ∧
    _parse_uptime "2d03h04m" = 183840 :=
  ⟨parse_uptime_normalization.2.2.2.1 "NeVeR" (by decide),
   parse_uptime_normalization.2.2.2.2.1 "01:02:03" "01" "02" "03" 1 2 3
     (by decide) (by decide) (by decide) (by decide) (by decide) (by decide)
     (by decide),
   parse_uptime_normalization.2.2.2.2.2 "2d03h04m" "2" "03" "04" 2 3 4
     (by decide) (by decide) (by decide) (by decide) (by decide) (by decide)
     (by decide) (by decide) (by decide)⟩

/-- C10: `parse_interface` — the primary listing parser used by
`collect_interfaces` on "display interface" output — yields at most one
record, the collector keeps exactly that many records, and the record's
name and status depend only on the first line of the output. -/
theorem parse_interface_single_record :
    ∀ (s : String) (statsFor : String → StatsDict),
      (parse_interface s).length ≤ 1 ∧
      (collect_interfaces statsFor s).length = (parse_interface s).length ∧
      (∀ s2 : String,
        (pySplitLines (pyStrip s)).head? = (pySplitLines (pyStrip s2)).head? →
        (parse_interface s).map (fun i => (i.name, i.status)) =
          (parse_interface s2).map (fun i => (i.name, i.status))) := by
  intro s statsFor
  refine ⟨?_, ?_, ?_⟩
  · cases h : pySplitLines (pyStrip s) with
    | nil => simp [parse_interface, h]
    | cons f r =>
      cases h2 : reMatch P_iface_state f with
      | none => simp [parse_interface, h, h2]
      | some caps => simp [parse_interface, h, h2]
  · simp [collect_interfaces]
  · intro s2 hhead
    cases h1 : pySplitLines (pyStrip s) with
    | nil =>
      cases h2 : pySplitLines (pyStrip s2) with
      | nil => simp [parse_interface, h1, h2]
      | cons f2 r2 => rw [h1, h2] at hhead; simp at hhead
    | cons f r =>
      cases h2 : pySplitLines (pyStrip s2) with
      | nil => rw [h1, h2] at hhead; simp at hhead
      | cons f2 r2 =>
        rw [h1, h2] at hhead
        simp only [List.head?_cons, Option.some.injEq] at hhead
        subst hhead
        cases h3 : reMatch P_iface_state f with
        | none => simp [parse_interface, h1, h2, h3]
        | some caps => simp [parse_interface, h1, h2, h3]

/-- Witness for C10: two outputs sharing a first line yield the same
single (name, status) record. -/
theorem parse_interface_single_record_witness :
    (parse_interface "eth0 current state : UP").map (fun i => (i.name, i.status)) =
      (parse_interface "eth0 current state : UP\nzz").map
        (fun i => (i.name, i.status)) :=
  (parse_interface_single_record "eth0 current state : UP"
      (fun _ => zeroStats)).2.2 "eth0 current state : UP\nzz" (by decide)

/-- C8: every parser is a total function of its input (the embedding has
no failure path: Python's try/except and zero defaults make each parser
return normally), and on input none of whose lines or segments is
recognized, the result degrades to the empty list or the all-zero
structure. -/
theorem parsers_never_raise_and_degrade :
    ∀ s : String,
      ((∀ l ∈ pySplitLines (pyStrip s), peerLineRecord l = none) →
        parse_bgp_peer s = []) ∧
      (reSearch P_received s = none → reSearch P_advertised s = none →
        parse_bgp_routing_table_peer s = ⟨0, 0⟩) ∧
      ((∀ l ∈ pySplitLines (pyStrip s), briefLineRecord l = none) →
        parse_interface_brief s = []) ∧
      ((∀ l ∈ pySplitLines (pyStrip s), descLineRecord l = none) →
        parse_interface_description s = []) ∧
      ((∀ f r, pySplitLines (pyStrip s) = f :: r →
          reMatch P_iface_state f = none) →
        parse_interface s = []) ∧
      (reSearch P_input_rate s = none → reSearch P_output_rate s = none →
        reSearch P_input_pps s = none → reSearch P_output_pps s = none →
        reSearch P_input_errors s = none → reSearch P_output_errors s = none →
        reSearch P_input_discards s = none → reSearch P_output_discards s = none →
        reSearch P_bw s = none →
        parse_interface_statistics s = zeroStats) := by
  intro s
  refine ⟨?_, ?_, ?_, ?_, ?_, ?_⟩
  · intro h
    by_cases hB : hasBGPData (pySplitLines (pyStrip s)) = false
    · simp [parse_bgp_peer, hB]
    · simp only [parse_bgp_peer]
      rw [if_neg hB]
      exact List.filterMap_eq_nil_iff.mpr h
  · intro h1 h2
    simp [parse_bgp_routing_table_peer, h1, h2]
  · intro h
    exact List.filterMap_eq_nil_iff.mpr h
  · intro h
    exact List.filterMap_eq_nil_iff.mpr h
  · intro h
    cases h1 : pySplitLines (pyStrip s) with
    | nil => simp [parse_interface, h1]
    | cons f r => simp [parse_interface, h1, h f r h1]
  · intro h1 h2 h3 h4 h5 h6 h7 h8 h9
    simp [parse_interface_statistics, statValue, zeroStats,
      h1, h2, h3, h4, h5, h6, h7, h8, h9]

/-- Witness for C8 on a fully unrecognized input. -/
theorem parsers_never_raise_and_degrade_witness :
    parse_bgp_peer "garbage!!!" = [] ∧
    parse_bgp_routing_table_peer "garbage!!!" = ⟨0, 0⟩ ∧
    parse_interface_brief "garbage!!!" = [] ∧
    parse_interface_description "garbage!!!" = [] ∧
    parse_interface "garbage!!!" = [] ∧
    parse_interface_statistics "garbage!!!" = zeroStats := by
  have h := parsers_never_raise_and_degrade "garbage!!!"
  refine ⟨h.1 (by decide), h.2.1 (by decide) (by decide), h.2.2.1 (by decide),
    h.2.2.2.1 (by decide), h.2.2.2.2.1 ?_,
    h.2.2.2.2.2 (by decide) (by decide) (by decide) (by decide) (by decide)
      (by decide) (by decide) (by decide) (by decide)⟩
  intro f r heq
  have hl : pySplitLines (pyStrip "garbage!!!") = ["garbage!!!"] := by decide
  rw [hl] at heq
  cases heq
  decide

/-! ## Reconciler helper lemmas (BGP side) -/

theorem runBGPBatch_eq_none_iff (raises : BGPSession → Bool) (now : Nat) :
    ∀ (sessions : List BGPSession) (st : DBState),
      runBGPBatch raises now st sessions = none ↔
        ∃ s ∈ sessions, raises s = true := by
  intro sessions
  induction sessions with
  | nil => intro st; simp [runBGPBatch]
  | cons x rest ih =>
    intro st
    cases hx : raises x with
    | true => simp [runBGPBatch, hx]
    | false =>
      simp only [runBGPBatch, hx, Bool.false_eq_true, if_false]
      rw [ih]
      simp [hx]

theorem runBGPBatch_eq_foldl (raises : BGPSession → Bool) (now : Nat) :
    ∀ (sessions : List BGPSession) (st : DBState),
      (∀ s ∈ sessions, raises s = false) →
      runBGPBatch raises now st sessions =
        some (sessions.foldl (processBGPRecord now) st) := by
  intro sessions
  induction sessions with
  | nil => intro st _; simp [runBGPBatch]
  | cons x rest ih =>
    intro st h
    have hx : raises x = false := h x (by simp)
    simp only [runBGPBatch, hx, Bool.false_eq_true, if_false, List.foldl_cons]
    exact ih _ (fun s hs => h s (by simp [hs]))

theorem update_bgp_no_raise (raises : BGPSession → Bool) (now : Nat)
    (st : DBState) (sessions : List BGPSession)
    (h : ∀ s ∈ sessions, raises s = false) :
    update_bgp_in_database raises now st sessions =
      sessions.foldl (processBGPRecord now) st := by
  unfold update_bgp_in_database
  cases sessions with
  | nil => simp
  | cons x rest =>
    rw [runBGPBatch_eq_foldl raises now _ _ h]
    simp

theorem processBGPRecord_hist (now : Nat) (st : DBState) (s : BGPSession) :
    (processBGPRecord now st s).bgp_status_history =
      st.bgp_status_history ++ [bgpHistoryRow now s] := by
  unfold processBGPRecord
  cases st.bgp_sessions.find? (fun r => r.peer_ip == s.peer_ip) with
  | none => simp
  | some r =>
    by_cases hst : r.status = s.status <;> simp [hst]

theorem foldBGP_hist (now : Nat) :
    ∀ (sessions : List BGPSession) (st : DBState),
      (sessions.foldl (processBGPRecord now) st).bgp_status_history =
        st.bgp_status_history ++ sessions.map (bgpHistoryRow now) := by
  intro sessions
  induction sessions with
  | nil => intro st; simp
  | cons x rest ih =>
    intro st
    rw [List.foldl_cons, ih, processBGPRecord_hist]
    simp

theorem processBGPRecord_events (now : Nat) (st : DBState) (s : BGPSession) :
    (processBGPRecord now st s).events =
      st.events ++
        (match st.bgp_sessions.find? (fun r => r.peer_ip == s.peer_ip) with
         | some r =>
           if r.status ≠ s.status then
             [_create_bgp_event s.peer_ip r.status s.status now]
           else []
         | none => []) := by
  unfold processBGPRecord
  cases st.bgp_sessions.find? (fun r => r.peer_ip == s.peer_ip) with
  | none => simp
  | some r =>
    by_cases hst : r.status = s.status <;> simp [hst]

theorem processBGPRecord_rows_filter (now : Nat) (st : DBState) (s : BGPSession)
    (k : String) (h : s.peer_ip ≠ k) :
    (processBGPRecord now st s).bgp_sessions.filter (fun r => r.peer_ip == k) =
      st.bgp_sessions.filter (fun r => r.peer_ip == k) := by
  unfold processBGPRecord
  cases hf : st.bgp_sessions.find? (fun r => r.peer_ip == s.peer_ip) with
  | some r =>
    simp only
    apply filter_map_eq_of_invariant
    · intro a ha
      have hak : a.peer_ip = k := by simpa using ha
      have : (a.peer_ip == s.peer_ip) = false := by
        simp only [beq_eq_false_iff_ne, ne_eq, hak]
        exact fun hc => h hc.symm
      simp [this]
    · intro a
      by_cases hk : (a.peer_ip == s.peer_ip) = true
      · simp [hk, bgpUpdateRow]
      · simp [hk]
  | none =>
    simp only [List.filter_append]
    have : ((bgpNewRow now s).peer_ip == k) = false := by
      simp only [bgpNewRow, beq_eq_false_iff_ne, ne_eq]
      exact h
    simp [List.filter_cons, this]

theorem processBGPRecord_own_key (now : Nat) (st : DBState) (s : BGPSession) :
    ((processBGPRecord now st s).bgp_sessions.filter
        (fun r => r.peer_ip == s.peer_ip)) ≠ [] ∧
    ∀ r ∈ (processBGPRecord now st s).bgp_sessions.filter
        (fun r => r.peer_ip == s.peer_ip), r.status = s.status := by
  unfold processBGPRecord
  cases hf : st.bgp_sessions.find? (fun r => r.peer_ip == s.peer_ip) with
  | some ex =>
    have hmem : ex ∈ st.bgp_sessions := List.mem_of_find?_eq_some hf
    have hkey : (ex.peer_ip == s.peer_ip) = true := by
      have hp := List.find?_some hf
      simpa using hp
    simp only
    constructor
    · intro hnil
      rw [List.filter_eq_nil_iff] at hnil
      have hfex : bgpUpdateRow now s ex ∈
          st.bgp_sessions.map (fun r =>
            if r.peer_ip == s.peer_ip then bgpUpdateRow now s r else r) := by
        have hmm := List.mem_map_of_mem
          (fun r => if r.peer_ip == s.peer_ip then bgpUpdateRow now s r else r) hmem
        simpa [hkey] using hmm
      exact hnil _ hfex (by simpa [bgpUpdateRow] using hkey)
    · intro r hr
      rw [List.mem_filter] at hr
      rcases List.mem_map.mp hr.1 with ⟨a, _, hfa⟩
      by_cases hak : (a.peer_ip == s.peer_ip) = true
      · rw [if_pos hak] at hfa
        rw [← hfa]
        rfl
      · rw [if_neg hak] at hfa
        rw [← hfa] at hr
        exact absurd hr.2 (by simp [hak])
  | none =>
    have hall := List.find?_eq_none.mp hf
    simp only
    constructor
    · intro hnil
      rw [List.filter_eq_nil_iff] at hnil
      exact hnil (bgpNewRow now s) (by simp) (by simp [bgpNewRow])
    · intro r hr
      rw [List.mem_filter] at hr
      rcases List.mem_append.mp hr.1 with hin | hnew
      · exact absurd hr.2 (by simpa using hall r hin)
      · have : r = bgpNewRow now s := by simpa using hnew
        rw [this]
        rfl

theorem processBGPRecord_countP_other (now : Nat) (st : DBState) (x : BGPSession)
    (k : String) (q : EventRow → Bool)
    (hq : ∀ e, q e = true → e.source = "BGP:" ++ k) (hx : x.peer_ip ≠ k) :
    (processBGPRecord now st x).events.countP q = st.events.countP q := by
  rw [processBGPRecord_events, List.countP_append]
  have hzero : ∀ (r : BGPRow),
      q (_create_bgp_event x.peer_ip r.status x.status now) = false := by
    intro r
    cases hqe : q (_create_bgp_event x.peer_ip r.status x.status now) with
    | false => rfl
    | true =>
      have hsrc := hq _ hqe
      have : ("BGP:" ++ x.peer_ip : String) = "BGP:" ++ k := hsrc
      exact absurd (string_append_cancel _ _ _ this) hx
  cases hf : st.bgp_sessions.find? (fun r => r.peer_ip == x.peer_ip) with
  | none => simp
  | some r =>
    by_cases hst : r.status = x.status
    · simp [hst]
    · simp [hst, countP_singleton, hzero r]

theorem foldBGP_frame_zone (now : Nat) (k : String) (q : EventRow → Bool)
    (hq : ∀ e, q e = true → e.source = "BGP:" ++ k) :
    ∀ (sessions : List BGPSession) (st : DBState),
      (∀ x ∈ sessions, x.peer_ip ≠ k) →
      ((sessions.foldl (processBGPRecord now) st).events.countP q =
          st.events.countP q) ∧
      ((sessions.foldl (processBGPRecord now) st).bgp_sessions.filter
          (fun r => r.peer_ip == k) =
        st.bgp_sessions.filter (fun r => r.peer_ip == k)) := by
  intro sessions
  induction sessions with
  | nil => intro st _; exact ⟨rfl, rfl⟩
  | cons x rest ih =>
    intro st h
    have hx : x.peer_ip ≠ k := h x (by simp)
    have hrest : ∀ y ∈ rest, y.peer_ip ≠ k := fun y hy => h y (by simp [hy])
    rw [List.foldl_cons]
    rcases ih (processBGPRecord now st x) hrest with ⟨ihe, ihr⟩
    exact ⟨by rw [ihe, processBGPRecord_countP_other now st x k q hq hx],
      by rw [ihr, processBGPRecord_rows_filter now st x k hx]⟩

theorem foldBGP_count_main (now : Nat) (k : String) (q : EventRow → Bool)
    (hq : ∀ e, q e = true → e.source = "BGP:" ++ k) :
    ∀ (sessions : List BGPSession) (st : DBState) (s : BGPSession),
      (sessions.map (fun x => x.peer_ip)).Nodup → s ∈ sessions → s.peer_ip = k →
      (sessions.foldl (processBGPRecord now) st).events.countP q =
        st.events.countP q +
          (match st.bgp_sessions.find? (fun r => r.peer_ip == s.peer_ip) with
           | some r =>
             if r.status ≠ s.status then
               (if q (_create_bgp_event s.peer_ip r.status s.status now) then 1
                else 0)
             else 0
           | none => 0) := by
  intro sessions
  induction sessions with
  | nil => intro st s _ hs; cases hs
  | cons x rest ih =>
    intro st s hnd hs hk
    rw [List.map_cons, List.nodup_cons] at hnd
    rcases List.mem_cons.mp hs with rfl | hsr
    · have hrest : ∀ y ∈ rest, y.peer_ip ≠ k := by
        intro y hy hkey
        exact hnd.1 (by
          rw [hk, ← hkey]
          exact List.mem_map_of_mem _ hy)
      rw [List.foldl_cons,
        (foldBGP_frame_zone now k q hq rest (processBGPRecord now st s) hrest).1,
        processBGPRecord_events, List.countP_append]
      cases hf : st.bgp_sessions.find? (fun r => r.peer_ip == s.peer_ip) with
      | none => simp
      | some r =>
        by_cases hst : r.status = s.status
        · simp [hst]
        · simp [hst, countP_singleton]
    · have hxk : x.peer_ip ≠ k := by
        intro he
        exact hnd.1 (by
          rw [he, ← hk]
          exact List.mem_map_of_mem _ hsr)
      have hfind : (processBGPRecord now st x).bgp_sessions.find?
          (fun r => r.peer_ip == s.peer_ip) =
          st.bgp_sessions.find? (fun r => r.peer_ip == s.peer_ip) := by
        rw [find?_eq_head_filter, find?_eq_head_filter,
          processBGPRecord_rows_filter now st x s.peer_ip (by rw [hk]; exact hxk)]
      rw [List.foldl_cons, ih (processBGPRecord now st x) s hnd.2 hsr hk, hfind,
        processBGPRecord_countP_other now st x k q hq hxk]

theorem foldBGP_presence (now : Nat) :
    ∀ (sessions : List BGPSession) (st : DBState) (s : BGPSession),
      (sessions.map (fun x => x.peer_ip)).Nodup → s ∈ sessions →
      ((sessions.foldl (processBGPRecord now) st).bgp_sessions.filter
          (fun r => r.peer_ip == s.peer_ip)) ≠ [] ∧
      ∀ r ∈ (sessions.foldl (processBGPRecord now) st).bgp_sessions.filter
          (fun r => r.peer_ip == s.peer_ip), r.status = s.status := by
  intro sessions
  induction sessions with
  | nil => intro st s _ hs; cases hs
  | cons x rest ih =>
    intro st s hnd hs
    rw [List.map_cons, List.nodup_cons] at hnd
    rcases List.mem_cons.mp hs with rfl | hsr
    · have hrest : ∀ y ∈ rest, y.peer_ip ≠ s.peer_ip := by
        intro y hy hkey
        exact hnd.1 (hkey ▸ List.mem_map_of_mem _ hy)
      rw [List.foldl_cons]
      have hfr := (foldBGP_frame_zone now s.peer_ip (fun _ => false)
        (fun e he => absurd he (by simp)) rest (processBGPRecord now st s) hrest).2
      rw [hfr]
      exact processBGPRecord_own_key now st s
    · rw [List.foldl_cons]
      exact ih (processBGPRecord now st x) s hnd.2 hsr

theorem foldBGP_sets (now : Nat) (sessions : List BGPSession) (st : DBState)
    (hnd : (sessions.map (fun x => x.peer_ip)).Nodup) :
    BGPStatusesSet (sessions.foldl (processBGPRecord now) st) sessions :=
  fun s hs => foldBGP_presence now sessions st s hnd hs

theorem foldBGP_noop (now : Nat) :
    ∀ (sessions : List BGPSession) (st : DBState),
      BGPStatusesSet st sessions →
      (sessions.map (fun x => x.peer_ip)).Nodup →
      (sessions.foldl (processBGPRecord now) st).events = st.events := by
  intro sessions
  induction sessions with
  | nil => intro st _ _; rfl
  | cons x rest ih =>
    intro st hset hnd
    rw [List.map_cons, List.nodup_cons] at hnd
    have hx := hset x (by simp)
    have hfind : ∃ r, st.bgp_sessions.find? (fun rr => rr.peer_ip == x.peer_ip) =
        some r ∧ r.status = x.status := by
      rw [find?_eq_head_filter]
      rcases hfil : st.bgp_sessions.filter (fun rr => rr.peer_ip == x.peer_ip)
        with _ | ⟨r, t⟩
      · exact absurd hfil hx.1
      · exact ⟨r, by rw [hfil]; rfl, hx.2 r (by rw [hfil]; simp)⟩
    rcases hfind with ⟨r, hf, hrs⟩
    have hev : (processBGPRecord now st x).events = st.events := by
      unfold processBGPRecord
      rw [hf]
      simp [hrs]
    have hset2 : BGPStatusesSet (processBGPRecord now st x) rest := by
      intro s hsr
      have hsk : x.peer_ip ≠ s.peer_ip := by
        intro he
        exact hnd.1 (he ▸ List.mem_map_of_mem _ hsr)
      rw [processBGPRecord_rows_filter now st x s.peer_ip hsk]
      exact hset s (by simp [hsr])
    rw [List.foldl_cons, ih _ hset2 hnd.2, hev]

/-! ## Reconciler helper lemmas (interface side) -/

theorem runIfBatch_eq_none_iff (raises : InterfaceRec → Bool) (now : Nat) :
    ∀ (interfaces : List InterfaceRec) (st : DBState),
      runIfBatch raises now st interfaces = none ↔
        ∃ i ∈ interfaces, raises i = true := by
  intro interfaces
  induction interfaces with
  | nil => intro st; simp [runIfBatch]
  | cons x rest ih =>
    intro st
    cases hx : raises x with
    | true => simp [runIfBatch, hx]
    | false =>
      simp only [runIfBatch, hx, Bool.false_eq_true, if_false]
      rw [ih]
      simp [hx]

theorem runIfBatch_eq_foldl (raises : InterfaceRec → Bool) (now : Nat) :
    ∀ (interfaces : List InterfaceRec) (st : DBState),
      (∀ i ∈ interfaces, raises i = false) →
      runIfBatch raises now st interfaces =
        some (interfaces.foldl (processIfRecord now) st) := by
  intro interfaces
  induction interfaces with
  | nil => intro st _; simp [runIfBatch]
  | cons x rest ih =>
    intro st h
    have hx : raises x = false := h x (by simp)
    simp only [runIfBatch, hx, Bool.false_eq_true, if_false, List.foldl_cons]
    exact ih _ (fun i hi => h i (by simp [hi]))

theorem update_interfaces_no_raise (raises : InterfaceRec → Bool) (now : Nat)
    (st : DBState) (interfaces : List InterfaceRec)
    (h : ∀ i ∈ interfaces, raises i = false) :
    update_interfaces_in_database raises now st interfaces =
      interfaces.foldl (processIfRecord now) st := by
  unfold update_interfaces_in_database
  cases interfaces with
  | nil => simp
  | cons x rest =>
    rw [runIfBatch_eq_foldl raises now _ _ h]
    simp

theorem processIfRecord_hist (now : Nat) (st : DBState) (i : InterfaceRec) :
    (processIfRecord now st i).interface_traffic_history =
      st.interface_traffic_history ++ [ifHistoryRow now i] := by
  unfold processIfRecord
  cases st.interfaces.find? (fun r => r.name == i.name) with
  | none => simp
  | some r =>
    by_cases hst : r.status = i.status <;> simp [hst]

theorem foldIf_hist (now : Nat) :
    ∀ (interfaces : List InterfaceRec) (st : DBState),
      (interfaces.foldl (processIfRecord now) st).interface_traffic_history =
        st.interface_traffic_history ++ interfaces.map (ifHistoryRow now) := by
  intro interfaces
  induction interfaces with
  | nil => intro st; simp
  | cons x rest ih =>
    intro st
    rw [List.foldl_cons, ih, processIfRecord_hist]
    simp

theorem processIfRecord_events (now : Nat) (st : DBState) (i : InterfaceRec) :
    (processIfRecord now st i).events =
      st.events ++
        (match st.interfaces.find? (fun r => r.name == i.name) with
         | some r =>
           if r.status ≠ i.status then
             [_create_interface_event i.name r.status i.status now]
           else []
         | none => []) := by
  unfold processIfRecord
  cases st.interfaces.find? (fun r => r.name == i.name) with
  | none => simp
  | some r =>
    by_cases hst : r.status = i.status <;> simp [hst]

theorem processIfRecord_rows_filter (now : Nat) (st : DBState) (i : InterfaceRec)
    (k : String) (h : i.name ≠ k) :
    (processIfRecord now st i).interfaces.filter (fun r => r.name == k) =
      st.interfaces.filter (fun r => r.name == k) := by
  unfold processIfRecord
  cases hf : st.interfaces.find? (fun r => r.name == i.name) with
  | some r =>
    simp only
    apply filter_map_eq_of_invariant
    · intro a ha
      have hak : a.name = k := by simpa using ha
      have : (a.name == i.name) = false := by
        simp only [beq_eq_false_iff_ne, ne_eq, hak]
        exact fun hc => h hc.symm
      simp [this]
    · intro a
      by_cases hk : (a.name == i.name) = true
      · simp [hk, ifUpdateRow]
      · simp [hk]
  | none =>
    simp only [List.filter_append]
    have : ((ifNewRow now i).name == k) = false := by
      simp only [ifNewRow, beq_eq_false_iff_ne, ne_eq]
      exact h
    simp [List.filter_cons, this]

theorem processIfRecord_own_key (now : Nat) (st : DBState) (i : InterfaceRec) :
    ((processIfRecord now st i).interfaces.filter (fun r => r.name == i.name)) ≠ [] ∧
    ∀ r ∈ (processIfRecord now st i).interfaces.filter (fun r => r.name == i.name),
      r.status = i.status := by
  unfold processIfRecord
  cases hf : st.interfaces.find? (fun r => r.name == i.name) with
  | some ex =>
    have hmem : ex ∈ st.interfaces := List.mem_of_find?_eq_some hf
    have hkey : (ex.name == i.name) = true := by
      have hp := List.find?_some hf
      simpa using hp
    simp only
    constructor
    · intro hnil
      rw [List.filter_eq_nil_iff] at hnil
      have hfex : ifUpdateRow now i ex ∈
          st.interfaces.map (fun r =>
            if r.name == i.name then ifUpdateRow now i r else r) := by
        have hmm := List.mem_map_of_mem
          (fun r => if r.name == i.name then ifUpdateRow now i r else r) hmem
        simpa [hkey] using hmm
      exact hnil _ hfex (by simpa [ifUpdateRow] using hkey)
    · intro r hr
      rw [List.mem_filter] at hr
      rcases List.mem_map.mp hr.1 with ⟨a, _, hfa⟩
      by_cases hak : (a.name == i.name) = true
      · rw [if_pos hak] at hfa
        rw [← hfa]
        rfl
      · rw [if_neg hak] at hfa
        rw [← hfa] at hr
        exact absurd hr.2 (by simp [hak])
  | none =>
    have hall := List.find?_eq_none.mp hf
    simp only
    constructor
    · intro hnil
      rw [List.filter_eq_nil_iff] at hnil
      exact hnil (ifNewRow now i) (by simp) (by simp [ifNewRow])
    · intro r hr
      rw [List.mem_filter] at hr
      rcases List.mem_append.mp hr.1 with hin | hnew
      · exact absurd hr.2 (by simpa using hall r hin)
      · have : r = ifNewRow now i := by simpa using hnew
        rw [this]
        rfl

theorem processIfRecord_countP_other (now : Nat) (st : DBState) (x : InterfaceRec)
    (k : String) (q : EventRow → Bool)
    (hq : ∀ e, q e = true → e.source = "Interface:" ++ k) (hx : x.name ≠ k) :
    (processIfRecord now st x).events.countP q = st.events.countP q := by
  rw [processIfRecord_events, List.countP_append]
  have hzero : ∀ (r : InterfaceRow),
      q (_create_interface_event x.name r.status x.status now) = false := by
    intro r
    cases hqe : q (_create_interface_event x.name r.status x.status now) with
    | false => rfl
    | true =>
      have hsrc := hq _ hqe
      have : ("Interface:" ++ x.name : String) = "Interface:" ++ k := hsrc
      exact absurd (string_append_cancel _ _ _ this) hx
  cases hf : st.interfaces.find? (fun r => r.name == x.name) with
  | none => simp
  | some r =>
    by_cases hst : r.status = x.status
    · simp [hst]
    · simp [hst, countP_singleton, hzero r]

theorem foldIf_frame_zone (now : Nat) (k : String) (q : EventRow → Bool)
    (hq : ∀ e, q e = true → e.source = "Interface:" ++ k) :
    ∀ (interfaces : List InterfaceRec) (st : DBState),
      (∀ x ∈ interfaces, x.name ≠ k) →
      ((interfaces.foldl (processIfRecord now) st).events.countP q =
          st.events.countP q) ∧
      ((interfaces.foldl (processIfRecord now) st).interfaces.filter
          (fun r => r.name == k) =
        st.interfaces.filter (fun r => r.name == k)) := by
  intro interfaces
  induction interfaces with
  | nil => intro st _; exact ⟨rfl, rfl⟩
  | cons x rest ih =>
    intro st h
    have hx : x.name ≠ k := h x (by simp)
    have hrest : ∀ y ∈ rest, y.name ≠ k := fun y hy => h y (by simp [hy])
    rw [List.foldl_cons]
    rcases ih (processIfRecord now st x) hrest with ⟨ihe, ihr⟩
    exact ⟨by rw [ihe, processIfRecord_countP_other now st x k q hq hx],
      by rw [ihr, processIfRecord_rows_filter now st x k hx]⟩

theorem foldIf_count_main (now : Nat) (k : String) (q : EventRow → Bool)
    (hq : ∀ e, q e = true → e.source = "Interface:" ++ k) :
    ∀ (interfaces : List InterfaceRec) (st : DBState) (i : InterfaceRec),
      (interfaces.map (fun x => x.name)).Nodup → i ∈ interfaces → i.name = k →
      (interfaces.foldl (processIfRecord now) st).events.countP q =
        st.events.countP q +
          (match st.interfaces.find? (fun r => r.name == i.name) with
           | some r =>
             if r.status ≠ i.status then
               (if q (_create_interface_event i.name r.status i.status now) then 1
                else 0)
             else 0
           | none => 0) := by
  intro interfaces
  induction interfaces with
  | nil => intro st i _ hi; cases hi
  | cons x rest ih =>
    intro st i hnd hi hk
    rw [List.map_cons, List.nodup_cons] at hnd
    rcases List.mem_cons.mp hi with rfl | hir
    · have hrest : ∀ y ∈ rest, y.name ≠ k := by
        intro y hy hkey
        exact hnd.1 (by
          rw [hk, ← hkey]
          exact List.mem_map_of_mem _ hy)
      rw [List.foldl_cons,
        (foldIf_frame_zone now k q hq rest (processIfRecord now st i) hrest).1,
        processIfRecord_events, List.countP_append]
      cases hf : st.interfaces.find? (fun r => r.name == i.name) with
      | none => simp
      | some r =>
        by_cases hst : r.status = i.status
        · simp [hst]
        · simp [hst, countP_singleton]
    · have hxk : x.name ≠ k := by
        intro he
        exact hnd.1 (by
          rw [he, ← hk]
          exact List.mem_map_of_mem _ hir)
      have hfind : (processIfRecord now st x).interfaces.find?
          (fun r => r.name == i.name) =
          st.interfaces.find? (fun r => r.name == i.name) := by
        rw [find?_eq_head_filter, find?_eq_head_filter,
          processIfRecord_rows_filter now st x i.name (by rw [hk]; exact hxk)]
      rw [List.foldl_cons, ih (processIfRecord now st x) i hnd.2 hir hk, hfind,
        processIfRecord_countP_other now st x k q hq hxk]

theorem foldIf_presence (now : Nat) :
    ∀ (interfaces : List InterfaceRec) (st : DBState) (i : InterfaceRec),
      (interfaces.map (fun x => x.name)).Nodup → i ∈ interfaces →
      ((interfaces.foldl (processIfRecord now) st).interfaces.filter
          (fun r => r.name == i.name)) ≠ [] ∧
      ∀ r ∈ (interfaces.foldl (processIfRecord now) st).interfaces.filter
          (fun r => r.name == i.name), r.status = i.status := by
  intro interfaces
  induction interfaces with
  | nil => intro st i _ hi; cases hi
  | cons x rest ih =>
    intro st i hnd hi
    rw [List.map_cons, List.nodup_cons] at hnd
    rcases List.mem_cons.mp hi with rfl | hir
    · have hrest : ∀ y ∈ rest, y.name ≠ i.name := by
        intro y hy hkey
        exact hnd.1 (hkey ▸ List.mem_map_of_mem _ hy)
      rw [List.foldl_cons]
      have hfr := (foldIf_frame_zone now i.name (fun _ => false)
        (fun e he => absurd he (by simp)) rest (processIfRecord now st i) hrest).2
      rw [hfr]
      exact processIfRecord_own_key now st i
    · rw [List.foldl_cons]
      exact ih (processIfRecord now st x) i hnd.2 hir

theorem foldIf_sets (now : Nat) (interfaces : List InterfaceRec) (st : DBState)
    (hnd : (interfaces.map (fun x => x.name)).Nodup) :
    IfStatusesSet (interfaces.foldl (processIfRecord now) st) interfaces :=
  fun i hi => foldIf_presence now interfaces st i hnd hi

theorem foldIf_noop (now : Nat) :
    ∀ (interfaces : List InterfaceRec) (st : DBState),
      IfStatusesSet st interfaces →
      (interfaces.map (fun x => x.name)).Nodup →
      (interfaces.foldl (processIfRecord now) st).events = st.events := by
  intro interfaces
  induction interfaces with
  | nil => intro st _ _; rfl
  | cons x rest ih =>
    intro st hset hnd
    rw [List.map_cons, List.nodup_cons] at hnd
    have hx := hset x (by simp)
    have hfind : ∃ r, st.interfaces.find? (fun rr => rr.name == x.name) =
        some r ∧ r.status = x.status := by
      rw [find?_eq_head_filter]
      rcases hfil : st.interfaces.filter (fun rr => rr.name == x.name)
        with _ | ⟨r, t⟩
      · exact absurd hfil hx.1
      · exact ⟨r, by rw [hfil]; rfl, hx.2 r (by rw [hfil]; simp)⟩
    rcases hfind with ⟨r, hf, hrs⟩
    have hev : (processIfRecord now st x).events = st.events := by
      unfold processIfRecord
      rw [hf]
      simp [hrs]
    have hset2 : IfStatusesSet (processIfRecord now st x) rest := by
      intro i hir
      have hik : x.name ≠ i.name := by
        intro he
        exact hnd.1 (he ▸ List.mem_map_of_mem _ hir)
      rw [processIfRecord_rows_filter now st x i.name hik]
      exact hset i (by simp [hir])
    rw [List.foldl_cons, ih _ hset2 hnd.2, hev]

/-! ## Reconciler claim theorems -/

/-- C2: the reconciler database update is atomic for both entity classes:
a record that raises rolls the whole batch back (all five tables are left
exactly as before the call), and a batch with no raising record commits
every per-record upsert, event insert and history insert together (the
final state is the fold of all per-record operations, with one history
row appended per record). -/
theorem reconcile_batch_atomicity :
    ∀ (raisesB : BGPSession → Bool) (raisesI : InterfaceRec → Bool) (now : Nat)
      (st : DBState) (sessions : List BGPSession)
      (interfaces : List InterfaceRec),
      ((∃ s ∈ sessions, raisesB s = true) →
        update_bgp_in_database raisesB now st sessions = st) ∧
      ((∀ s ∈ sessions, raisesB s = false) →
        update_bgp_in_database raisesB now st sessions =
          sessions.foldl (processBGPRecord now) st ∧
        (update_bgp_in_database raisesB now st sessions).bgp_status_history =
          st.bgp_status_history ++ sessions.map (bgpHistoryRow now)) ∧
      ((∃ i ∈ interfaces, raisesI i = true) →
        update_interfaces_in_database raisesI now st interfaces = st) ∧
      ((∀ i ∈ interfaces, raisesI i = false) →
        update_interfaces_in_database raisesI now st interfaces =
          interfaces.foldl (processIfRecord now) st ∧
        (update_interfaces_in_database raisesI now st
            interfaces).interface_traffic_history =
          st.interface_traffic_history ++ interfaces.map (ifHistoryRow now)) := by
  intro raisesB raisesI now st sessions interfaces
  refine ⟨?_, ?_, ?_, ?_⟩
  · intro hex
    unfold update_bgp_in_database
    rw [(runBGPBatch_eq_none_iff raisesB now sessions st).mpr hex]
    cases sessions <;> simp
  · intro hall
    have h1 := update_bgp_no_raise raisesB now st sessions hall
    exact ⟨h1, by rw [h1, foldBGP_hist]⟩
  · intro hex
    unfold update_interfaces_in_database
    rw [(runIfBatch_eq_none_iff raisesI now interfaces st).mpr hex]
    cases interfaces <;> simp
  · intro hall
    have h1 := update_interfaces_no_raise raisesI now st interfaces hall
    exact ⟨h1, by rw [h1, foldIf_hist]⟩

/-- Witness for C2: a raising one-record batch leaves the empty database
unchanged; a non-raising batch appends its one history row. -/
theorem reconcile_batch_atomicity_witness :
    update_bgp_in_database (fun _ => true) 5 ⟨[], [], [], [], []⟩
      [⟨"10.0.0.1", "65001", "Established", none, 0, 0, 0⟩] =
      ⟨[], [], [], [], []⟩ ∧
    (update_bgp_in_database (fun _ => false) 5 ⟨[], [], [], [], []⟩
        [⟨"10.0.0.1", "65001", "Established", none, 0, 0, 0⟩]).bgp_status_history =
      [bgpHistoryRow 5 ⟨"10.0.0.1", "65001", "Established", none, 0, 0, 0⟩] ∧
    update_interfaces_in_database (fun _ => true) 5 ⟨[], [], [], [], []⟩
      [⟨"eth0", "up", none, 0, 0, 0, 0, 0, 0, 0, 0, 0, 0, 0⟩] =
      ⟨[], [], [], [], []⟩ := by
  have h1 := reconcile_batch_atomicity (fun _ => true) (fun _ => true) 5
    ⟨[], [], [], [], []⟩ [⟨"10.0.0.1", "65001", "Established", none, 0, 0, 0⟩]
    [⟨"eth0", "up", none, 0, 0, 0, 0, 0, 0, 0, 0, 0, 0, 0⟩]
  have h2 := reconcile_batch_atomicity (fun _ => false) (fun _ => false) 5
    ⟨[], [], [], [], []⟩ [⟨"10.0.0.1", "65001", "Established", none, 0, 0, 0⟩] []
  refine ⟨h1.1 ⟨⟨"10.0.0.1", "65001", "Established", none, 0, 0, 0⟩, by simp,
    rfl⟩, ?_,
    h1.2.2.1 ⟨⟨"eth0", "up", none, 0, 0, 0, 0, 0, 0, 0, 0, 0, 0, 0⟩, by simp,
      rfl⟩⟩
  have hh := (h2.2.1 (fun _ _ => rfl)).2
  simpa using hh

/-- C3: during one reconciliation of a snapshot (with pairwise distinct
keys) against current-state, a transition event for a key is inserted
exactly when that key already exists in current-state with a different
stored status (counted via the event source that names the entity), and a
key absent from current-state ends up inserted as a new row while
contributing no transition event. -/
theorem reconcile_transition_iff_status_change :
    ∀ (now : Nat) (st : DBState) (sessions : List BGPSession)
      (interfaces : List InterfaceRec),
      ((sessions.map (fun x => x.peer_ip)).Nodup →
        ∀ s ∈ sessions,
          ((update_bgp_in_database (fun _ => false) now st sessions).events.countP
              (fun e => e.source == "BGP:" ++ s.peer_ip) =
            st.events.countP (fun e => e.source == "BGP:" ++ s.peer_ip) +
              (match st.bgp_sessions.find? (fun r => r.peer_ip == s.peer_ip) with
               | some r => if r.status ≠ s.status then 1 else 0
               | none => 0)) ∧
          (st.bgp_sessions.find? (fun r => r.peer_ip == s.peer_ip) = none →
            ((update_bgp_in_database (fun _ => false) now st
                sessions).bgp_sessions.filter
                (fun r => r.peer_ip == s.peer_ip)) ≠ [])) ∧
      ((interfaces.map (fun x => x.name)).Nodup →
        ∀ i ∈ interfaces,
          ((update_interfaces_in_database (fun _ => false) now st
              interfaces).events.countP
              (fun e => e.source == "Interface:" ++ i.name) =
            st.events.countP (fun e => e.source == "Interface:" ++ i.name) +
              (match st.interfaces.find? (fun r => r.name == i.name) with
               | some r => if r.status ≠ i.status then 1 else 0
               | none => 0)) ∧
          (st.interfaces.find? (fun r => r.name == i.name) = none →
            ((update_interfaces_in_database (fun _ => false) now st
                interfaces).interfaces.filter
                (fun r => r.name == i.name)) ≠ [])) := by
  intro now st sessions interfaces
  constructor
  · intro hnd s hs
    have hupd := update_bgp_no_raise (fun _ => false) now st sessions
      (fun _ _ => rfl)
    constructor
    · rw [hupd]
      have hq : ∀ e : EventRow, (e.source == "BGP:" ++ s.peer_ip) = true →
          e.source = "BGP:" ++ s.peer_ip := fun e he => by simpa using he
      rw [foldBGP_count_main now s.peer_ip _ hq sessions st s hnd hs rfl]
      congr 1
      cases hf : st.bgp_sessions.find? (fun r => r.peer_ip == s.peer_ip) with
      | none => rfl
      | some r =>
        by_cases hst : r.status = s.status
        · simp [hst]
        · simp [hst, _create_bgp_event]
    · intro _
      rw [hupd]
      exact (foldBGP_presence now sessions st s hnd hs).1
  · intro hnd i hi
    have hupd := update_interfaces_no_raise (fun _ => false) now st interfaces
      (fun _ _ => rfl)
    constructor
    · rw [hupd]
      have hq : ∀ e : EventRow, (e.source == "Interface:" ++ i.name) = true →
          e.source = "Interface:" ++ i.name := fun e he => by simpa using he
      rw [foldIf_count_main now i.name _ hq interfaces st i hnd hi rfl]
      congr 1
      cases hf : st.interfaces.find? (fun r => r.name == i.name) with
      | none => rfl
      | some r =>
        by_cases hst : r.status = i.status
        · simp [hst]
        · simp [hst, _create_interface_event]
    · intro _
      rw [hupd]
      exact (foldIf_presence now interfaces st i hnd hi).1

/-- Witness for C3: a status change on a known peer inserts exactly one
transition event; a first-seen peer inserts a row and no event; the
interface side behaves the same. -/
theorem reconcile_transition_iff_status_change_witness :
    ((update_bgp_in_database (fun _ => false) 9
        ⟨[⟨"1.1.1.1", "65001", none, "Established", 0, 0, 0, 1, 1, 1⟩], [], [],
          [], []⟩
        [⟨"1.1.1.1", "65001", "Down", none, 0, 0, 0⟩,
         ⟨"2.2.2.2", "65002", "Idle", none, 0, 0, 0⟩]).events.countP
        (fun e => e.source == "BGP:" ++ "1.1.1.1") = 1) ∧
    ((update_bgp_in_database (fun _ => false) 9
        ⟨[⟨"1.1.1.1", "65001", none, "Established", 0, 0, 0, 1, 1, 1⟩], [], [],
          [], []⟩
        [⟨"1.1.1.1", "65001", "Down", none, 0, 0, 0⟩,
         ⟨"2.2.2.2", "65002", "Idle", none, 0, 0, 0⟩]).bgp_sessions.filter
        (fun r => r.peer_ip == "2.2.2.2")) ≠ [] ∧
    ((update_interfaces_in_database (fun _ => false) 9
        ⟨[⟨"1.1.1.1", "65001", none, "Established", 0, 0, 0, 1, 1, 1⟩], [], [],
          [], []⟩
        [⟨"eth0", "up", none, 0, 0, 0, 0, 0, 0, 0, 0, 0, 0, 0⟩]).events.countP
        (fun e => e.source == "Interface:" ++ "eth0") = 0) := by
  have h := reconcile_transition_iff_status_change 9
    ⟨[⟨"1.1.1.1", "65001", none, "Established", 0, 0, 0, 1, 1, 1⟩], [], [], [], []⟩
    [⟨"1.1.1.1", "65001", "Down", none, 0, 0, 0⟩,
     ⟨"2.2.2.2", "65002", "Idle", none, 0, 0, 0⟩]
    [⟨"eth0", "up", none, 0, 0, 0, 0, 0, 0, 0, 0, 0, 0, 0⟩]
  have hB := h.1 (by decide)
  have hI := h.2 (by decide)
  refine ⟨?_, (hB ⟨"2.2.2.2", "65002", "Idle", none, 0, 0, 0⟩ (by simp)).2
    (by decide), ?_⟩
  · have h1 := (hB ⟨"1.1.1.1", "65001", "Down", none, 0, 0, 0⟩ (by simp)).1
    rw [h1]
    decide
  · have h2 := (hI ⟨"eth0", "up", none, 0, 0, 0, 0, 0, 0, 0, 0, 0, 0, 0⟩
      (by simp)).1
    rw [h2]
    decide

/-- C5 counterexample: a stored "Established" peer observed "Down" yields
exactly one event, but its type is "bgp_down", not the "session-down" the
claim asserts. -/
theorem bgp_session_down_event_type_counterexample :
    ((update_bgp_in_database (fun _ => false) 100
        ⟨[⟨"10.0.0.1", "65001", none, "Established", 0, 0, 0, 1, 1, 1⟩], [], [],
          [], []⟩
        [⟨"10.0.0.1", "65001", "Down", none, 0, 0, 0⟩]).events.length = 1) ∧
    ((update_bgp_in_database (fun _ => false) 100
        ⟨[⟨"10.0.0.1", "65001", none, "Established", 0, 0, 0, 1, 1, 1⟩], [], [],
          [], []⟩
        [⟨"10.0.0.1", "65001", "Down", none, 0, 0, 0⟩]).events.countP
        (fun e => e.event_type == "session-down") = 0) ∧
    ((update_bgp_in_database (fun _ => false) 100
        ⟨[⟨"10.0.0.1", "65001", none, "Established", 0, 0, 0, 1, 1, 1⟩], [], [],
          [], []⟩
        [⟨"10.0.0.1", "65001", "Down", none, 0, 0, 0⟩]).events.countP
        (fun e => e.event_type == "bgp_down" && e.severity == "critical") = 1) :=
  ⟨by decide, by decide, by decide⟩

/-- C5 (amended): when the reconciler processes a peer whose stored status
is "Established" and whose observed status is "Down" (snapshot keys
distinct), exactly one event is inserted for that peer in the cycle, and
that event has type "bgp_down" — the source's name for the session-down
transition — with severity "critical". -/
theorem bgp_established_to_down_event :
    ∀ (now : Nat) (st : DBState) (sessions : List BGPSession) (s : BGPSession)
      (r : BGPRow),
      (sessions.map (fun x => x.peer_ip)).Nodup → s ∈ sessions →
      st.bgp_sessions.find? (fun row => row.peer_ip == s.peer_ip) = some r →
      r.status = "Established" → s.status = "Down" →
      ((update_bgp_in_database (fun _ => false) now st sessions).events.countP
          (fun e => e.source == "BGP:" ++ s.peer_ip) =
        st.events.countP (fun e => e.source == "BGP:" ++ s.peer_ip) + 1) ∧
      ((update_bgp_in_database (fun _ => false) now st sessions).events.countP
          (fun e => e.source == "BGP:" ++ s.peer_ip &&
            e.event_type == "bgp_down" && e.severity == "critical") =
        st.events.countP (fun e => e.source == "BGP:" ++ s.peer_ip &&
            e.event_type == "bgp_down" && e.severity == "critical") + 1) := by
  intro now st sessions s r hnd hs hf hEst hDown
  have hupd := update_bgp_no_raise (fun _ => false) now st sessions
    (fun _ _ => rfl)
  have hne : r.status ≠ s.status := by
    rw [hEst, hDown]
    decide
  have hlow : pyLower s.status = "down" := by
    rw [hDown]
    decide
  constructor
  · have hq : ∀ e : EventRow, (e.source == "BGP:" ++ s.peer_ip) = true →
        e.source = "BGP:" ++ s.peer_ip := fun e he => by simpa using he
    rw [hupd, foldBGP_count_main now s.peer_ip _ hq sessions st s hnd hs rfl, hf]
    simp [hne, _create_bgp_event]
  · have hq : ∀ e : EventRow, (e.source == "BGP:" ++ s.peer_ip &&
        e.event_type == "bgp_down" && e.severity == "critical") = true →
        e.source = "BGP:" ++ s.peer_ip := by
      intro e he
      simp only [Bool.and_eq_true, beq_iff_eq] at he
      exact he.1.1
    rw [hupd, foldBGP_count_main now s.peer_ip _ hq sessions st s hnd hs rfl, hf]
    simp [hne, _create_bgp_event, hlow]

/-- Witness for C5's amended theorem on a concrete Established-to-Down
transition. -/
theorem bgp_established_to_down_event_witness :
    ((update_bgp_in_database (fun _ => false) 100
        ⟨[⟨"10.0.0.1", "65001", none, "Established", 0, 0, 0, 1, 1, 1⟩], [], [],
          [], []⟩
        [⟨"10.0.0.1", "65001", "Down", none, 0, 0, 0⟩]).events.countP
        (fun e => e.source == "BGP:" ++ "10.0.0.1" &&
          e.event_type == "bgp_down" && e.severity == "critical") = 1) := by
  have h := bgp_established_to_down_event 100
    ⟨[⟨"10.0.0.1", "65001", none, "Established", 0, 0, 0, 1, 1, 1⟩], [], [], [],
      []⟩
    [⟨"10.0.0.1", "65001", "Down", none, 0, 0, 0⟩]
    ⟨"10.0.0.1", "65001", "Down", none, 0, 0, 0⟩
    ⟨"10.0.0.1", "65001", none, "Established", 0, 0, 0, 1, 1, 1⟩
    (by decide) (by simp) (by decide) rfl rfl
  rw [h.2]
  decide

/-- C6: reconciliation is idempotent for transition events but not for
history: re-applying the same snapshot (distinct keys) inserts no second
transition event, while each application appends one history row per
record, so each snapshot entity gains exactly two history rows over the
two applications. -/
theorem reconcile_idempotence :
    ∀ (now1 now2 : Nat) (st : DBState) (sessions : List BGPSession)
      (interfaces : List InterfaceRec),
      (sessions.map (fun x => x.peer_ip)).Nodup →
      (interfaces.map (fun x => x.name)).Nodup →
      ((update_bgp_in_database (fun _ => false) now2
          (update_bgp_in_database (fun _ => false) now1 st sessions)
          sessions).events =
        (update_bgp_in_database (fun _ => false) now1 st sessions).events) ∧
      ((update_bgp_in_database (fun _ => false) now2
          (update_bgp_in_database (fun _ => false) now1 st sessions)
          sessions).bgp_status_history =
        st.bgp_status_history ++ sessions.map (bgpHistoryRow now1) ++
          sessions.map (bgpHistoryRow now2)) ∧
      (∀ s ∈ sessions,
        (update_bgp_in_database (fun _ => false) now2
            (update_bgp_in_database (fun _ => false) now1 st sessions)
            sessions).bgp_status_history.countP
            (fun hrow => hrow.peer_ip == s.peer_ip) =
          st.bgp_status_history.countP (fun hrow => hrow.peer_ip == s.peer_ip)
            + 2) ∧
      ((update_interfaces_in_database (fun _ => false) now2
          (update_interfaces_in_database (fun _ => false) now1 st interfaces)
          interfaces).events =
        (update_interfaces_in_database (fun _ => false) now1 st
          interfaces).events) ∧
      (∀ i ∈ interfaces,
        (update_interfaces_in_database (fun _ => false) now2
            (update_interfaces_in_database (fun _ => false) now1 st interfaces)
            interfaces).interface_traffic_history.countP
            (fun hrow => hrow.interface_name == i.name) =
          st.interface_traffic_history.countP
            (fun hrow => hrow.interface_name == i.name) + 2) := by
  intro now1 now2 st sessions interfaces hndB hndI
  have u1 := update_bgp_no_raise (fun _ => false) now1 st sessions
    (fun _ _ => rfl)
  have u2 := update_bgp_no_raise (fun _ => false) now2
    (update_bgp_in_database (fun _ => false) now1 st sessions) sessions
    (fun _ _ => rfl)
  have v1 := update_interfaces_no_raise (fun _ => false) now1 st interfaces
    (fun _ _ => rfl)
  have v2 := update_interfaces_no_raise (fun _ => false) now2
    (update_interfaces_in_database (fun _ => false) now1 st interfaces)
    interfaces (fun _ _ => rfl)
  have hsetB : BGPStatusesSet
      (update_bgp_in_database (fun _ => false) now1 st sessions) sessions := by
    rw [u1]
    exact foldBGP_sets now1 sessions st hndB
  have hsetI : IfStatusesSet
      (update_interfaces_in_database (fun _ => false) now1 st interfaces)
      interfaces := by
    rw [v1]
    exact foldIf_sets now1 interfaces st hndI
  have hevB : (update_bgp_in_database (fun _ => false) now2
      (update_bgp_in_database (fun _ => false) now1 st sessions)
      sessions).events =
      (update_bgp_in_database (fun _ => false) now1 st sessions).events := by
    rw [u2]
    exact foldBGP_noop now2 sessions _ hsetB hndB
  have hevI : (update_interfaces_in_database (fun _ => false) now2
      (update_interfaces_in_database (fun _ => false) now1 st interfaces)
      interfaces).events =
      (update_interfaces_in_database (fun _ => false) now1 st
        interfaces).events := by
    rw [v2]
    exact foldIf_noop now2 interfaces _ hsetI hndI
  have hhistB : (update_bgp_in_database (fun _ => false) now2
      (update_bgp_in_database (fun _ => false) now1 st sessions)
      sessions).bgp_status_history =
      st.bgp_status_history ++ sessions.map (bgpHistoryRow now1) ++
        sessions.map (bgpHistoryRow now2) := by
    rw [u2, foldBGP_hist, u1, foldBGP_hist]
  have hhistI : (update_interfaces_in_database (fun _ => false) now2
      (update_interfaces_in_database (fun _ => false) now1 st interfaces)
      interfaces).interface_traffic_history =
      st.interface_traffic_history ++ interfaces.map (ifHistoryRow now1) ++
        interfaces.map (ifHistoryRow now2) := by
    rw [v2, foldIf_hist, v1, foldIf_hist]
  refine ⟨hevB, hhistB, ?_, hevI, ?_⟩
  · intro s hs
    have hcnt : ∀ n : Nat,
        (sessions.map (bgpHistoryRow n)).countP
          (fun hrow => hrow.peer_ip == s.peer_ip) = 1 := by
      intro n
      have hmapeq : (sessions.map (bgpHistoryRow n)).map
          (fun hrow => hrow.peer_ip) = sessions.map (fun x => x.peer_ip) := by
        rw [List.map_map]
        rfl
      have hnd2 : ((sessions.map (bgpHistoryRow n)).map
          (fun hrow => hrow.peer_ip)).Nodup := by
        rw [hmapeq]
        exact hndB
      have := countP_key_map_nodup (fun hrow => hrow.peer_ip)
        (sessions.map (bgpHistoryRow n)) hnd2 (bgpHistoryRow n s)
        (List.mem_map_of_mem _ hs)
      simpa using this
    rw [hhistB, List.countP_append, List.countP_append, hcnt now1, hcnt now2]
  · intro i hi
    have hcnt : ∀ n : Nat,
        (interfaces.map (ifHistoryRow n)).countP
          (fun hrow => hrow.interface_name == i.name) = 1 := by
      intro n
      have hmapeq : (interfaces.map (ifHistoryRow n)).map
          (fun hrow => hrow.interface_name) =
          interfaces.map (fun x => x.name) := by
        rw [List.map_map]
        rfl
      have hnd2 : ((interfaces.map (ifHistoryRow n)).map
          (fun hrow => hrow.interface_name)).Nodup := by
        rw [hmapeq]
        exact hndI
      have := countP_key_map_nodup (fun hrow => hrow.interface_name)
        (interfaces.map (ifHistoryRow n)) hnd2 (ifHistoryRow n i)
        (List.mem_map_of_mem _ hi)
      simpa using this
    rw [hhistI, List.countP_append, List.countP_append, hcnt now1, hcnt now2]

/-- Witness for C6 on a one-peer, one-interface snapshot over an empty
database. -/
theorem reconcile_idempotence_witness :
    ((update_bgp_in_database (fun _ => false) 2
        (update_bgp_in_database (fun _ => false) 1 ⟨[], [], [], [], []⟩
          [⟨"10.0.0.1", "65001", "Established", none, 0, 0, 0⟩])
        [⟨"10.0.0.1", "65001", "Established", none, 0, 0, 0⟩]).events =
      (update_bgp_in_database (fun _ => false) 1 ⟨[], [], [], [], []⟩
        [⟨"10.0.0.1", "65001", "Established", none, 0, 0, 0⟩]).events) ∧
    ((update_bgp_in_database (fun _ => false) 2
        (update_bgp_in_database (fun _ => false) 1 ⟨[], [], [], [], []⟩
          [⟨"10.0.0.1", "65001", "Established", none, 0, 0, 0⟩])
        [⟨"10.0.0.1", "65001", "Established", none, 0, 0, 0⟩]).bgp_status_history.countP
        (fun hrow => hrow.peer_ip == "10.0.0.1") = 2) := by
  have h := reconcile_idempotence 1 2 ⟨[], [], [], [], []⟩
    [⟨"10.0.0.1", "65001", "Established", none, 0, 0, 0⟩]
    [⟨"eth0", "up", none, 0, 0, 0, 0, 0, 0, 0, 0, 0, 0, 0⟩]
    (by decide) (by decide)
  refine ⟨h.1, ?_⟩
  have h2 := h.2.2.1 ⟨"10.0.0.1", "65001", "Established", none, 0, 0, 0⟩
    (by simp)
  rw [h2]
  decide

/-! ## Alert evaluator claim theorem -/

/-- C7: alert suppression windows.  For an interface in error-threshold
violation, two evaluator runs whose second lies within 10 minutes of the
event emitted by the first produce exactly one "high_errors" event; and a
run of the peer-down or interface-down rule emits nothing for a candidate
that already has a same-type, source-matching event inside the trailing
5-minute window. -/
theorem alert_suppression_windows :
    (∀ (threshold : Int) (t1 t2 : Nat) (st : DBState) (i : InterfaceRow),
      st.interfaces.filter (errorCandidate threshold) = [i] →
      _has_recent_event "high_errors" i.name 10 t1 st.events = false →
      t2 < t1 + 600 →
      (check_error_thresholds threshold t2
          (check_error_thresholds threshold t1 st)).events.countP
          (fun e => e.event_type == "high_errors" && containsSub e.source i.name) =
        st.events.countP
          (fun e => e.event_type == "high_errors" && containsSub e.source i.name)
          + 1) ∧
    (∀ (now : Nat) (st : DBState) (p : BGPRow),
      st.bgp_sessions.filter bgpAlertCandidate = [p] →
      _has_recent_event "bgp_down" p.peer_ip 5 now st.events = true →
      (check_bgp_alerts now st).events = st.events) ∧
    (∀ (now : Nat) (st : DBState) (r : InterfaceRow),
      st.interfaces.filter ifDownCandidate = [r] →
      _has_recent_event "interface_down" r.name 5 now st.events = true →
      (check_interface_alerts now st).events = st.events) := by
  refine ⟨?_, ?_, ?_⟩
  · intro threshold t1 t2 st i hfilter hrec ht
    unfold check_error_thresholds
    rw [hfilter]
    simp only [List.foldl_cons, List.foldl_nil]
    rw [hrec]
    simp only [Bool.false_eq_true, if_false]
    rw [hfilter]
    simp only [List.foldl_cons, List.foldl_nil]
    have hrec2 : _has_recent_event "high_errors" i.name 10 t2
        (st.events ++
          [alertEventRow t1 "high_errors" "warning" ("Interface:" ++ i.name)
            ("Interface " ++ i.name ++ " com alto nivel de erros")
            ("Total de erros, threshold, input, output")]) = true := by
      unfold _has_recent_event
      simp only [List.any_append, Bool.or_eq_true]
      right
      simp [alertEventRow, containsSub_self_suffixed]
      omega
    rw [hrec2]
    simp only [if_true]
    simp only [List.countP_append]
    rw [countP_singleton]
    have hqev : (fun e => e.event_type == "high_errors" &&
        containsSub e.source i.name)
        (alertEventRow t1 "high_errors" "warning" ("Interface:" ++ i.name)
          ("Interface " ++ i.name ++ " com alto nivel de erros")
          ("Total de erros, threshold, input, output")) = true := by
      simp [alertEventRow, containsSub_self_suffixed]
    rw [if_pos hqev]
  · intro now st p hfilter hrec
    unfold check_bgp_alerts
    rw [hfilter]
    simp [hrec]
  · intro now st r hfilter hrec
    unfold check_interface_alerts
    rw [hfilter]
    simp [hrec]

/-- Witness for C7 on a concrete violating interface (two runs 500 s
apart) and concrete suppressed status candidates. -/
theorem alert_suppression_windows_witness :
    ((check_error_thresholds 5 1500
        (check_error_thresholds 5 1000
          ⟨[], [⟨"GE1", none, "up", 0, 0, 0, 0, 0, 10, 0, 0, 0, 0, 0, 0, 0, 0⟩],
            [], [], []⟩)).events.countP
        (fun e => e.event_type == "high_errors" && containsSub e.source "GE1")
      = 1) ∧
    ((check_bgp_alerts 1000
        ⟨[⟨"9.9.9.9", "65009", none, "Idle", 0, 0, 0, 0, 0, 0⟩], [],
          [⟨990, "bgp_down", "critical", "BGP:9.9.9.9", "m", "d"⟩], [], []⟩).events =
      [⟨990, "bgp_down", "critical", "BGP:9.9.9.9", "m", "d"⟩]) ∧
    ((check_interface_alerts 1000
        ⟨[], [⟨"GE2", none, "down", 0, 0, 0, 0, 0, 0, 0, 0, 0, 0, 0, 0, 0, 0⟩],
          [⟨990, "interface_down", "critical", "Interface:GE2", "m", "d"⟩], [],
          []⟩).events =
      [⟨990, "interface_down", "critical", "Interface:GE2", "m", "d"⟩]) := by
  have h := alert_suppression_windows
  refine ⟨?_, ?_, ?_⟩
  · have h1 := h.1 5 1000 1500
      ⟨[], [⟨"GE1", none, "up", 0, 0, 0, 0, 0, 10, 0, 0, 0, 0, 0, 0, 0, 0⟩], [],
        [], []⟩
      ⟨"GE1", none, "up", 0, 0, 0, 0, 0, 10, 0, 0, 0, 0, 0, 0, 0, 0⟩
      (by decide) (by decide) (by decide)
    rw [h1]
    decide
  · exact h.2.1 1000
      ⟨[⟨"9.9.9.9", "65009", none, "Idle", 0, 0, 0, 0, 0, 0⟩], [],
        [⟨990, "bgp_down", "critical", "BGP:9.9.9.9", "m", "d"⟩], [], []⟩
      ⟨"9.9.9.9", "65009", none, "Idle", 0, 0, 0, 0, 0, 0⟩
      (by decide) (by decide)
  · exact h.2.2 1000
      ⟨[], [⟨"GE2", none, "down", 0, 0, 0, 0, 0, 0, 0, 0, 0, 0, 0, 0, 0, 0⟩],
        [⟨990, "interface_down", "critical", "Interface:GE2", "m", "d"⟩], [], []⟩
      ⟨"GE2", none, "down", 0, 0, 0, 0, 0, 0, 0, 0, 0, 0, 0, 0, 0, 0⟩
      (by decide) (by decide)

end BGPMon
